import Mathlib

/-!
Verification of the go-theft-craft Minecraft 1.8.9 server core against its
specification.  The Go source is shallowly embedded: machine integers are
modelled as `Nat`/`Int` with explicit wrap-around (`% 2^32`, `% 2^64`) where
the Go code relies on overflow, Go maps become association lists or
`Option`-valued functions, and fallible readers return `Option`.  The only
part of the generator that is not embedded exactly is the IEEE-754 simplex
noise evaluation: it is abstracted as an oracle (a pure function of the
permutation table and the integer inputs of each call site), which is all
the determinism property needs.
-/

/- ===================== Wire codec: VarInt (net package) ===================== -/

/-- Unsigned 32-bit reinterpretation of a signed 32-bit value
(`val := uint32(value)` in `PutVarInt`/`VarIntSize`). -/
def toUInt32Rep (value : Int) : Nat := (value % (2 ^ 32)).toNat

/-- Signed reinterpretation of an unsigned 32-bit accumulator
(`int32(result)` at the end of `ReadVarInt`). -/
def toInt32Rep (u : Nat) : Int := if u < 2 ^ 31 then (u : Int) else (u : Int) - 2 ^ 32

/-- The do-while loop of `PutVarInt`: emit 7-bit septets, low first, setting
bit 7 on every byte except the last. -/
def putVarIntLoop (val : Nat) : List Nat :=
  let b := val &&& 0x7F
  let val2 := val >>> 7
  if h : val2 = 0 then [b] else (b ||| 0x80) :: putVarIntLoop val2
termination_by val
decreasing_by
  have hv : 0 < val := by
    rcases Nat.eq_zero_or_pos val with h0 | h0
    · subst h0
      exact absurd (by decide : (0 : Nat) >>> 7 = 0) h
    · exact h0
  simpa [Nat.shiftRight_eq_div_pow] using Nat.div_lt_self hv (by norm_num)

/-- Go `PutVarInt(buf, value)`: the bytes written (its return value is their
count, i.e. the length of this list). -/
def putVarInt (value : Int) : List Nat := putVarIntLoop (toUInt32Rep value)

/-- The read loop of `ReadVarInt`: `numRead` bytes consumed so far, `acc` the
uint32 accumulator.  Returns `none` on EOF or on a VarInt longer than 5
bytes ("VarInt too long"). -/
def readVarIntLoop : List Nat → Nat → Nat → Option (Int × Nat)
  | [], _, _ => none
  | b :: rest, numRead, acc =>
    let numRead' := numRead + 1
    let acc' := (acc ||| (((b &&& 0x7F) <<< (7 * (numRead' - 1))) % 2 ^ 32))
    if b &&& 0x80 = 0 then some (toInt32Rep acc', numRead')
    else if 5 ≤ numRead' then none
    else readVarIntLoop rest numRead' acc'

/-- Go `ReadVarInt(r)`: decodes a VarInt from the byte stream, returning the
value and the number of bytes read. -/
def readVarInt (bytes : List Nat) : Option (Int × Nat) := readVarIntLoop bytes 0 0

/-- The loop of `VarIntSize`. -/
def varIntSizeLoop (val : Nat) : Nat :=
  let val2 := val >>> 7
  if h : val2 = 0 then 1 else 1 + varIntSizeLoop val2
termination_by val
decreasing_by
  have hv : 0 < val := by
    rcases Nat.eq_zero_or_pos val with h0 | h0
    · subst h0
      exact absurd (by decide : (0 : Nat) >>> 7 = 0) h
    · exact h0
  simpa [Nat.shiftRight_eq_div_pow] using Nat.div_lt_self hv (by norm_num)

/-- Go `VarIntSize(value)`: number of bytes the encoding of `value` occupies. -/
def varIntSize (value : Int) : Nat := varIntSizeLoop (toUInt32Rep value)

/- ===================== AES/CFB8 stream (conn package) ===================== -/

/-- The CFB8 feedback register: 16 bytes.  `shiftIn` shifts the register left
by one byte and appends `b` (`copy(s.iv[:], s.iv[1:]); s.iv[15] = b`). -/
def shiftIn (iv : List Nat) (b : Nat) : List Nat := iv.drop 1 ++ [b]

/-- `cfb8Stream.XORKeyStream`.  `E` abstracts `s.block.Encrypt`: the first
output byte of AES-encrypting the current feedback register (only `tmp[0]`
of the 16 encrypted bytes is used by the Go code).  `enc` is the stream's
`encrypt` flag.  Returns the final register and the output bytes.  On
encrypt the ciphertext byte (the output) is shifted in; on decrypt the
ciphertext byte (the input) is shifted in. -/
def cfb8XorKeyStream (E : List Nat → Nat) (enc : Bool) :
    List Nat → List Nat → List Nat × List Nat
  | iv, [] => (iv, [])
  | iv, b :: rest =>
    let k := E iv
    let outByte := b ^^^ k
    let iv' := if enc then shiftIn iv outByte else shiftIn iv b
    let r := cfb8XorKeyStream E enc iv' rest
    (r.1, outByte :: r.2)

/-- `newCFB8Encrypt(block, iv)` followed by one `XORKeyStream` over `src`:
the produced ciphertext. -/
def cfb8Encrypt (E : List Nat → Nat) (iv src : List Nat) : List Nat :=
  (cfb8XorKeyStream E true iv src).2

/-- `newCFB8Decrypt(block, iv)` followed by one `XORKeyStream` over `src`:
the produced plaintext. -/
def cfb8Decrypt (E : List Nat → Nat) (iv src : List Nat) : List Nat :=
  (cfb8XorKeyStream E false iv src).2

/-- Feeding a stream one byte per `XORKeyStream` call: the state (register)
persists across calls, outputs are concatenated. -/
def cfb8ByteAtATime (E : List Nat → Nat) (enc : Bool) (iv src : List Nat) :
    List Nat × List Nat :=
  src.foldl
    (fun st b =>
      let r := cfb8XorKeyStream E enc st.1 [b]
      (r.1, st.2 ++ r.2))
    (iv, [])

/- ===================== Chunk data model (gen package) ===================== -/

/-- `gen.Section`: block data for a 16×16×16 slice.  The Go `[4096]uint16`
array is modelled as a total function; indices outside `[0, 4096)` are never
used by the embedded code.  Index = `(y&15)*256 + z*16 + x`,
value = `blockID<<4 | metadata`. -/
structure ChunkSection where
  blocks : Nat → Nat

/-- `gen.ChunkData`: 16 optional sections (`none` = all-air, the nil
pointer) plus 256 biome bytes indexed by `z*16 + x`. -/
structure ChunkData where
  sections : Nat → Option ChunkSection
  biomes : Nat → Nat

/-- A fresh `&ChunkData{}`: all sections nil, biomes zeroed. -/
def emptyChunk : ChunkData := { sections := fun _ => none, biomes := fun _ => 0 }

/-- `ChunkData.SetBlock`: writing state 0 into a nil section returns without
allocating; otherwise the section is allocated zero-filled on demand and
the cell at `(y&15)*256 + z*16 + x` is set. -/
def ChunkData.setBlock (c : ChunkData) (x y z : Nat) (state : Nat) : ChunkData :=
  let sec := y >>> 4
  match c.sections sec with
  | none =>
    if state = 0 then c
    else
      { c with sections := fun i =>
          if i = sec then
            some ⟨fun idx => if idx = (y &&& 0xF) * 256 + z * 16 + x then state else 0⟩
          else c.sections i }
  | some s =>
    { c with sections := fun i =>
        if i = sec then
          some ⟨fun idx => if idx = (y &&& 0xF) * 256 + z * 16 + x then state else s.blocks idx⟩
        else c.sections i }

/-- `ChunkData.GetBlock`: a nil section reads as 0 (air). -/
def ChunkData.getBlock (c : ChunkData) (x y z : Nat) : Nat :=
  match c.sections (y >>> 4) with
  | none => 0
  | some s => s.blocks ((y &&& 0xF) * 256 + z * 16 + x)

/-- `ChunkData.SetBiome`. -/
def ChunkData.setBiome (c : ChunkData) (x z : Nat) (biome : Nat) : ChunkData :=
  { c with biomes := fun i => if i = z * 16 + x then biome else c.biomes i }

/-- One `SetBlock` call, for reasoning about arbitrary call sequences. -/
structure SetOp where
  x : Nat
  y : Nat
  z : Nat
  state : Nat

/-- Apply a sequence of `SetBlock` calls to a chunk. -/
def applySetOps (c : ChunkData) (ops : List SetOp) : ChunkData :=
  ops.foldl (fun c o => c.setBlock o.x o.y o.z o.state) c

/- Block and biome constants (gen package, flat.go / biomes file). -/

def blockAir : Nat := 0
def blockStone : Nat := 1
def blockGrass : Nat := 2
def blockDirt : Nat := 3
def blockBedrock : Nat := 7
def blockWater : Nat := 9
def blockSand : Nat := 12
def blockGravel : Nat := 13
def blockLog : Nat := 17
def blockLeaves : Nat := 18
def blockSandstone : Nat := 24
def blockTallGrass : Nat := 31
def blockFlower : Nat := 38
def blockCactus : Nat := 81
def blockDeadBush : Nat := 32
def blockCoalOre : Nat := 16
def blockIronOre : Nat := 15
def blockGoldOre : Nat := 14
def blockDiamondOre : Nat := 56
def blockRedstoneOre : Nat := 73
def blockLapisOre : Nat := 21
def blockLava : Nat := 11
def logOak : Nat := 0
def logSpruce : Nat := 1
def logBirch : Nat := 2
def leavesOak : Nat := 0
def leavesSpruce : Nat := 1
def leavesBirch : Nat := 2
def seaLevel : Nat := 62
def biomeOcean : Nat := 0
def biomeSavanna : Nat := 35
def biomeForest : Nat := 4
def biomeDarkForest : Nat := 29
def biomeTaiga : Nat := 5
def biomeSnowyTaiga : Nat := 30
def biomeDesert : Nat := 2
def biomeJungle : Nat := 21
def biomeMountains : Nat := 3
def biomeBeach : Nat := 16
def biomeTundra : Nat := 12
def biomePlains : Nat := 1

/-- `FlatGenerator.Generate`: bedrock at y=0, stone y=1–2, dirt y=3, grass
y=4, biome plains, for every column of the chunk (independent of cx, cz). -/
def flatGenerate : ChunkData :=
  (List.range 16).foldl
    (fun c x =>
      (List.range 16).foldl
        (fun c z =>
          (((((c.setBlock x 0 z (blockBedrock <<< 4)).setBlock x 1 z
                (blockStone <<< 4)).setBlock x 2 z (blockStone <<< 4)).setBlock x 3 z
                (blockDirt <<< 4)).setBlock x 4 z (blockGrass <<< 4)).setBiome x z
            biomePlains)
        c)
    emptyChunk

/- ===================== World (internal/server/world) ===================== -/

/-- `world.World`: a deterministic generator (the chunk cache always yields
the value `Generate` produced for that position) plus the override map
`blocks map[BlockPos]int32`, modelled as a duplicate-free association
list. -/
structure GoWorld where
  generator : Int → Int → ChunkData
  blocks : List ((Int × Int × Int) × Int)

/-- `NewWorld`: empty override map. -/
def mkWorld (generator : Int → Int → ChunkData) : GoWorld :=
  { generator := generator, blocks := [] }

/-- Go map lookup `w.blocks[BlockPos{x,y,z}]`. -/
def ovLookup : List ((Int × Int × Int) × Int) → (Int × Int × Int) → Option Int
  | [], _ => none
  | e :: rest, p => if e.1 = p then some e.2 else ovLookup rest p

/-- Go map `delete`. -/
def ovErase : List ((Int × Int × Int) × Int) → (Int × Int × Int) →
    List ((Int × Int × Int) × Int)
  | [], _ => []
  | e :: rest, p => if e.1 = p then ovErase rest p else e :: ovErase rest p

/-- Go map insert (overwrites any previous binding). -/
def ovInsert (bs : List ((Int × Int × Int) × Int)) (p : Int × Int × Int) (v : Int) :
    List ((Int × Int × Int) × Int) :=
  (p, v) :: ovErase bs p

/-- The `base` state `World.SetBlock` compares against: the generated
chunk's value when `0 ≤ y < 256`, otherwise the initial `int32(0)`.
Go's `x>>4` is an arithmetic shift (floor division) and `x&0xF` the
non-negative remainder, which for the positive modulus 16 coincide with
Lean's `Int` division and `%`. -/
def GoWorld.baseValue (w : GoWorld) (x y z : Int) : Int :=
  let c := w.generator (x / 16) (z / 16)
  if 0 ≤ y ∧ y < 256 then (c.getBlock (x % 16).toNat y.toNat (z % 16).toNat : Int) else 0

/-- `World.GetBlock`: checks overrides first, then falls back to the
generated chunk; y outside `[0, 256)` reads the chunk as 0. -/
def GoWorld.getBlock (w : GoWorld) (x y z : Int) : Int :=
  match ovLookup w.blocks (x, y, z) with
  | some s => s
  | none =>
    let c := w.generator (x / 16) (z / 16)
    if y < 0 ∨ 256 ≤ y then 0
    else (c.getBlock (x % 16).toNat y.toNat (z % 16).toNat : Int)

/-- `World.SetBlock`: stores an override, or deletes it when the new state
equals the base state. -/
def GoWorld.setBlock (w : GoWorld) (x y z : Int) (stateID : Int) : GoWorld :=
  let base := w.baseValue x y z
  if stateID = base then { w with blocks := ovErase w.blocks (x, y, z) }
  else { w with blocks := ovInsert w.blocks (x, y, z) stateID }

/-- One `World.SetBlock` call. -/
structure WorldSetOp where
  x : Int
  y : Int
  z : Int
  state : Int

/-- Apply a sequence of `World.SetBlock` calls. -/
def applyWorldOps (w : GoWorld) (ops : List WorldSetOp) : GoWorld :=
  ops.foldl (fun w o => w.setBlock o.x o.y o.z o.state) w

/- ===================== Chunk wire codec (EncodeChunk) ===================== -/

/-- `pkt.MapChunk` as filled in by `World.EncodeChunk`. -/
structure MapChunk where
  x : Int
  z : Int
  groundUp : Bool
  bitMap : Nat
  chunkData : List Nat

/-- The section bitmap loop of `EncodeChunk`: bit i set iff section i is
non-nil; bit 0 forced if no section exists at all. -/
def chunkBitMap (chunk : ChunkData) : Nat :=
  let bm :=
    (List.range 16).foldl
      (fun bm i => if (chunk.sections i).isSome then bm ||| (1 <<< i) else bm) 0
  if bm = 0 then 0x0001 else bm

/-- The 8192 little-endian bytes of one section's block states (`blocks`
buffer before overrides): zeros for a nil section. -/
def sectionBlocksList (sec : Option ChunkSection) : List Nat :=
  match sec with
  | none => List.replicate 8192 0
  | some s =>
    (List.range 4096).foldr
      (fun idx acc => s.blocks idx % 256 :: s.blocks idx / 256 % 256 :: acc) []

/-- `World.applyOverrides`: writes every override belonging to chunk
`(cx, cz)` and section `sectionIdx` into the byte buffer
(`uint16(stateID)` little-endian at `((y&15)*256+(z&15)*16+(x&15))*2`). -/
def applyOverrides (blocks : List Nat) (bs : List ((Int × Int × Int) × Int))
    (cx cz : Int) (sectionIdx : Nat) : List Nat :=
  let baseY : Int := (sectionIdx : Int) * 16
  bs.foldl
    (fun blocks e =>
      if e.1.1 / 16 = cx ∧ e.1.2.2 / 16 = cz then
        if e.1.2.1 < baseY ∨ baseY + 16 ≤ e.1.2.1 then blocks
        else
          let lx := (e.1.1 % 16).toNat
          let ly := (e.1.2.1 % 16).toNat
          let lz := (e.1.2.2 % 16).toNat
          let idx := (ly * 256 + lz * 16 + lx) * 2
          let v := (e.2 % 2 ^ 16).toNat
          (blocks.set idx (v % 256)).set (idx + 1) (v / 256 % 256)
      else blocks)
    blocks

/-- `World.EncodeChunk`: bitmap, per-section block bytes with overrides
overlaid, full-bright block light and sky light, then biomes. -/
def GoWorld.encodeChunk (w : GoWorld) (cx cz : Int) : MapChunk :=
  let chunk := w.generator cx cz
  let bitMap := chunkBitMap chunk
  let blockData :=
    (List.range 16).foldl
      (fun data i =>
        if bitMap &&& (1 <<< i) = 0 then data
        else data ++ applyOverrides (sectionBlocksList (chunk.sections i)) w.blocks cx cz i)
      []
  let fullLight := List.replicate 2048 0xFF
  let lightData :=
    (List.range 16).foldl
      (fun data i => if bitMap &&& (1 <<< i) = 0 then data else data ++ fullLight) []
  { x := cx, z := cz, groundUp := true, bitMap := bitMap,
    chunkData := blockData ++ lightData ++ lightData ++ (List.range 256).map chunk.biomes }

/- ===================== Default generator (gen package) ===================== -/

/-- Both the noise-table shuffle and `chunkRNG` use the same 64-bit LCG
`s = s*6364136223846793005 + 1442695040888963407`, which in Go wraps at
`int64` width (two's complement, i.e. mod 2^64 on the unsigned
representative). -/
def lcgNext (s : Nat) : Nat := (s * 6364136223846793005 + 1442695040888963407) % 2 ^ 64

/-- Unsigned 64-bit representative of a Go `int64`. -/
def toUInt64Rep (x : Int) : Nat := (x % 2 ^ 64).toNat

/-- Signed value of an unsigned 64-bit representative. -/
def toInt64Rep (u : Nat) : Int := if u < 2 ^ 63 then (u : Int) else (u : Int) - 2 ^ 64

/-- The Fisher–Yates loop of `NewNoiseGenerator` (`for i := 255; i > 0; i--`).
`j := int((s>>33)&0x7FFFFFFF) % (i+1)` is non-negative (31 bits survive the
arithmetic shift, so Go's `if j < 0` branch never fires), and on the
unsigned representative the arithmetic-shift-then-mask equals
`(s >>> 33) &&& 0x7FFFFFFF`. -/
def shuffleLoop : Nat → Nat → List Nat → List Nat
  | 0, _, p => p
  | i + 1, s, p =>
    let s' := lcgNext s
    let j := ((s' >>> 33) &&& 0x7FFFFFFF) % (i + 2)
    let pi := p.getD (i + 1) 0
    let pj := p.getD j 0
    shuffleLoop i s' ((p.set (i + 1) pj).set j pi)

/-- `NewNoiseGenerator(seed)`: the 512-entry permutation table
(`perm[i] = p[i&255]`, i.e. the shuffled 256-table doubled). -/
def newNoiseGenerator (seed : Int) : List Nat :=
  let p := shuffleLoop 255 (toUInt64Rep seed) (List.range 256)
  p ++ p

/-- `newChunkRNG(seed, cx, cz, salt)`:
`seed ^ (cx*341873128712 + cz*132897987541 + salt)` in wrapping `int64`
arithmetic (the products and sums reduce mod 2^64, XOR acts on the
two's-complement representative). -/
def newChunkRNG (seed cx cz salt : Int) : Nat :=
  toUInt64Rep seed ^^^ toUInt64Rep (cx * 341873128712 + cz * 132897987541 + salt)

/-- `chunkRNG.nextN(n)`: advance the LCG, arithmetic-shift the signed state
right by 33 (floor division), take Go's truncated remainder by `n`, and
negate if negative.  Returns the value (as a `Nat`, since it is
non-negative) and the new state. -/
def chunkRNGNextN (state : Nat) (n : Int) : Nat × Nat :=
  let state' := lcgNext state
  let v := (toInt64Rep state' / 2 ^ 33).tmod n
  ((if v < 0 then -v else v).toNat, state')

/-- The IEEE-754 simplex-noise evaluations, abstracted.  Each field is one
float-valued call site of the generator, as a pure function of the
relevant permutation table(s) and the integer inputs; real numbers are
represented by `Rat`.  Everything downstream of these values (biome
thresholds, height clamping, cave threshold, bedrock comparison) is
embedded exactly. -/
structure NoiseOracle where
  /-- `terrain.OctaveNoise2D(bx/128, bz/128, 6, 0.5)` (shared by
  `terrainHeight` and the ocean/beach test of `BiomeAt`). -/
  octaveTerrain : List Nat → Int → Int → Rat
  /-- `detail.OctaveNoise2D(bx/32, bz/32, 3, 0.5)`. -/
  octaveDetail : List Nat → Int → Int → Rat
  /-- `terrain.Noise2D(bx*0.5, z*0.5)` in the bedrock pattern of
  `fillColumn`. -/
  bedrockNoise : List Nat → Int → Int → Rat
  /-- `tempNoise.OctaveNoise2D(bx/512, bz/512, 4, 0.5)`. -/
  octaveTemp : List Nat → Int → Int → Rat
  /-- `rainNoise.OctaveNoise2D(bx/512+100, bz/512+100, 4, 0.5)`. -/
  octaveRain : List Nat → Int → Int → Rat
  /-- `noise1.Noise3D(bx/32, y/24, bz/32)` in `CaveGenerator.Carve`. -/
  caveNoise1 : List Nat → Int → Int → Int → Rat
  /-- `noise2.Noise3D(bx/48, y/32, bz/48)` in `CaveGenerator.Carve`. -/
  caveNoise2 : List Nat → Int → Int → Int → Rat

/-- `DefaultGenerator`: the seed-derived state of every sub-generator
(`NewDefaultGenerator`): terrain/detail noise tables, the
`BiomeGenerator` (seed+100, seed+200, seed), the `CaveGenerator`
(seed+300, seed+400), and the ore/tree seeds. -/
structure DefaultGenerator where
  terrain : List Nat
  detail : List Nat
  biomeTempPerm : List Nat
  biomeRainPerm : List Nat
  biomeTerrainPerm : List Nat
  cavePerm1 : List Nat
  cavePerm2 : List Nat
  oreSeed : Int
  treeSeed : Int

/-- `NewDefaultGenerator(seed)`. -/
def newDefaultGenerator (seed : Int) : DefaultGenerator :=
  { terrain := newNoiseGenerator seed
    detail := newNoiseGenerator (seed + 1)
    biomeTempPerm := newNoiseGenerator (seed + 100)
    biomeRainPerm := newNoiseGenerator (seed + 200)
    biomeTerrainPerm := newNoiseGenerator seed
    cavePerm1 := newNoiseGenerator (seed + 300)
    cavePerm2 := newNoiseGenerator (seed + 400)
    oreSeed := seed
    treeSeed := seed }

/-- Go `int(x)` on a float: truncation toward zero. -/
def ratTrunc (x : Rat) : Int := if x < 0 then -((-x).floor) else x.floor

/-- The ascending integer interval `[lo, hi]` (empty when `hi < lo`),
used to model Go `for` loops over integer ranges. -/
def intRange (lo hi : Int) : List Int :=
  (List.range (hi + 1 - lo).toNat).map (fun k => lo + (k : Int))

/-- A descending loop `for y := hi; y >= lo; y--`. -/
def intRangeDesc (hi lo : Int) : List Int := (intRange lo hi).reverse

/-- `selectBiome(temp, rain)`: the temperature × rainfall biome matrix. -/
def selectBiome (temp rain : Rat) : Nat :=
  if temp < 3 / 10 then
    if rain < 3 / 10 then biomeTundra
    else if rain < 6 / 10 then biomeSnowyTaiga
    else biomeTaiga
  else if temp < 7 / 10 then
    if rain < 3 / 10 then biomePlains
    else if rain < 6 / 10 then biomeForest
    else biomeDarkForest
  else if temp < 12 / 10 then
    if rain < 3 / 10 then biomeSavanna
    else if rain < 6 / 10 then biomePlains
    else biomeJungle
  else if rain > 6 / 10 then biomeJungle
  else biomeDesert

/-- `BiomeGenerator.BiomeAt(bx, bz)`: ocean/beach by terrain height, else
the temperature/rainfall matrix. -/
def biomeAt (O : NoiseOracle) (tempPerm rainPerm terrPerm : List Nat) (bx bz : Int) : Nat :=
  let temp := O.octaveTemp tempPerm bx bz * (8 / 10) + 3 / 4
  let rain := O.octaveRain rainPerm bx bz * (1 / 2) + 1 / 2
  let terrainBase := O.octaveTerrain terrPerm bx bz
  let terrainHt : Rat := 62 + terrainBase * 8
  if terrainHt < (seaLevel : Rat) - 8 then biomeOcean
  else if (seaLevel : Rat) - 8 ≤ terrainHt ∧ terrainHt < (seaLevel : Rat) - 2 then biomeBeach
  else selectBiome temp rain

/-- `biomeTerrainParams(biome)`: (amplitude, baseHeight). -/
def biomeTerrainParams (biome : Nat) : Rat × Rat :=
  if biome = biomeOcean then (8, 40)
  else if biome = biomePlains ∨ biome = biomeSavanna then (12, (seaLevel : Rat))
  else if biome = biomeForest ∨ biome = biomeDarkForest then (16, (seaLevel : Rat) + 2)
  else if biome = biomeTaiga ∨ biome = biomeSnowyTaiga then (18, (seaLevel : Rat) + 4)
  else if biome = biomeDesert then (10, (seaLevel : Rat) + 2)
  else if biome = biomeJungle then (18, (seaLevel : Rat) + 4)
  else if biome = biomeMountains then (40, (seaLevel : Rat) + 10)
  else if biome = biomeBeach then (3, (seaLevel : Rat))
  else if biome = biomeTundra then (10, (seaLevel : Rat))
  else (14, (seaLevel : Rat))

/-- `DefaultGenerator.terrainHeight(bx, bz, biome)`: noise-scaled height,
truncated to int and clamped to `[1, 250]`. -/
def terrainHeight (O : NoiseOracle) (g : DefaultGenerator) (bx bz : Int) (biome : Nat) : Int :=
  let base := O.octaveTerrain g.terrain bx bz
  let detail := O.octaveDetail g.detail bx bz
  let p := biomeTerrainParams biome
  let height : Rat := p.2 + base * p.1 + detail * 4
  let h := ratTrunc height
  let h := if h < 1 then 1 else h
  if h > 250 then 250 else h

/-- `surfaceLayerDepth(biome)`. -/
def surfaceLayerDepth (biome : Nat) : Int := if biome = biomeDesert then 5 else 4

/-- `applyDefaultSurface`: grass (or dirt under water) on top, dirt below. -/
def applyDefaultSurface (c : ChunkData) (x z : Nat) (height : Int) : ChunkData :=
  if height ≤ 3 then c
  else
    let c :=
      if height > (seaLevel : Int) then c.setBlock x height.toNat z (blockGrass <<< 4)
      else c.setBlock x height.toNat z (blockDirt <<< 4)
    (intRangeDesc (height - 1) (max (height - 3) 4)).foldl
      (fun c y => c.setBlock x y.toNat z (blockDirt <<< 4)) c

/-- `applySurface`: biome-specific surface layers.  The Go guards
`y > height-4 && y > 3` etc. are rendered as the descending interval down
to `max (height-3) 4` (resp. the appropriate lower bound). -/
def applySurface (c : ChunkData) (x z : Nat) (height : Int) (biome : Nat) : ChunkData :=
  if biome = biomeDesert then
    let c :=
      (intRangeDesc height (max (height - 3) 4)).foldl
        (fun c y => c.setBlock x y.toNat z (blockSand <<< 4)) c
    let c := if height - 4 > 3 then c.setBlock x (height - 4).toNat z (blockSandstone <<< 4) else c
    if height - 5 > 3 then c.setBlock x (height - 5).toNat z (blockSandstone <<< 4) else c
  else if biome = biomeOcean then
    let c :=
      (intRangeDesc height (max (height - 2) 4)).foldl
        (fun c y => c.setBlock x y.toNat z (blockGravel <<< 4)) c
    (intRangeDesc (height - 3) (max (height - 4) 4)).foldl
      (fun c y => c.setBlock x y.toNat z (blockDirt <<< 4)) c
  else if biome = biomeBeach then
    let c :=
      (intRangeDesc height (max (height - 3) 4)).foldl
        (fun c y => c.setBlock x y.toNat z (blockSand <<< 4)) c
    if height - 4 > 3 then c.setBlock x (height - 4).toNat z (blockSandstone <<< 4) else c
  else if biome = biomeMountains then
    if height > 100 then
      (intRangeDesc height (max (height - 3) 4)).foldl
        (fun c y => c.setBlock x y.toNat z (blockStone <<< 4)) c
    else applyDefaultSurface c x z height
  else applyDefaultSurface c x z height

/-- `DefaultGenerator.fillColumn`: bedrock pattern, stone fill, surface
layers, water fill up to sea level. -/
def fillColumn (O : NoiseOracle) (g : DefaultGenerator) (c : ChunkData) (x z : Nat)
    (height : Int) (biome : Nat) : ChunkData :=
  let c := c.setBlock x 0 z (blockBedrock <<< 4)
  let c :=
    (intRange 1 3).foldl
      (fun c y =>
        let bx : Int := (x : Int) + y * 7
        if 0 < O.bedrockNoise g.terrain bx (z : Int) then
          c.setBlock x y.toNat z (blockBedrock <<< 4)
        else c.setBlock x y.toNat z (blockStone <<< 4))
      c
  let stoneTop := max (height - surfaceLayerDepth biome) 4
  let c :=
    (intRange 4 (min stoneTop height)).foldl
      (fun c y => c.setBlock x y.toNat z (blockStone <<< 4)) c
  let c := applySurface c x z height biome
  if height < (seaLevel : Int) then
    (intRange (height + 1) (seaLevel : Int)).foldl
      (fun c y => c.setBlock x y.toNat z (blockWater <<< 4)) c
  else c

/-- `CaveGenerator.Carve`: replace interior blocks whose combined cave
density exceeds 0.55 with air (or lava below y=10). -/
def carve (O : NoiseOracle) (g : DefaultGenerator) (c : ChunkData) (chunkX chunkZ : Int)
    (heights : Nat → Nat → Int) : ChunkData :=
  (List.range 16).foldl
    (fun c (x : Nat) =>
      (List.range 16).foldl
        (fun c (z : Nat) =>
          let bx := chunkX * 16 + (x : Int)
          let bz := chunkZ * 16 + (z : Int)
          let maxY := heights x z
          if maxY < 5 then c
          else
            (intRange 4 (maxY - 5)).foldl
              (fun c y =>
                let n1 := O.caveNoise1 g.cavePerm1 bx y bz
                let n2 := O.caveNoise2 g.cavePerm2 bx y bz
                let density := (n1 + n2) / 2
                if density > 55 / 100 then
                  if y < 10 then c.setBlock x y.toNat z (blockLava <<< 4)
                  else c.setBlock x y.toNat z (blockAir <<< 4)
                else c)
              c)
        c)
    c

/-- One row of the `ores` table. -/
structure OreConfig where
  block : Nat
  minY : Int
  maxY : Int
  veinSize : Nat
  attempts : Nat

/-- The `ores` package-level table. -/
def oresTable : List OreConfig :=
  [⟨blockCoalOre, 0, 128, 12, 20⟩,
   ⟨blockIronOre, 0, 64, 8, 20⟩,
   ⟨blockGoldOre, 0, 32, 8, 2⟩,
   ⟨blockDiamondOre, 0, 16, 6, 1⟩,
   ⟨blockRedstoneOre, 0, 16, 6, 8⟩,
   ⟨blockLapisOre, 0, 32, 6, 1⟩]

/-- `OreGenerator.placeVein`: `size` random-walk steps; at each step replace
stone (only) at the in-bounds current position, then move one block in a
random direction. -/
def placeVeinLoop (heights : Nat → Nat → Int) (blockID : Nat) :
    Nat → ChunkData → Int → Int → Int → Nat → ChunkData × Nat
  | 0, c, _, _, _, st => (c, st)
  | n + 1, c, cx, cy, cz, st =>
    let c :=
      if 0 ≤ cx ∧ cx < 16 ∧ 0 ≤ cz ∧ cz < 16 ∧ 1 ≤ cy ∧ cy < heights cx.toNat cz.toNat then
        if c.getBlock cx.toNat cy.toNat cz.toNat = blockStone <<< 4 then
          c.setBlock cx.toNat cy.toNat cz.toNat (blockID <<< 4)
        else c
      else c
    let r := chunkRNGNextN st 6
    if r.1 = 0 then placeVeinLoop heights blockID n c (cx + 1) cy cz r.2
    else if r.1 = 1 then placeVeinLoop heights blockID n c (cx - 1) cy cz r.2
    else if r.1 = 2 then placeVeinLoop heights blockID n c cx (cy + 1) cz r.2
    else if r.1 = 3 then placeVeinLoop heights blockID n c cx (cy - 1) cz r.2
    else if r.1 = 4 then placeVeinLoop heights blockID n c cx cy (cz + 1) r.2
    else placeVeinLoop heights blockID n c cx cy (cz - 1) r.2

/-- `OreGenerator.Place`: per-chunk RNG with salt 500, then for every ore and
every attempt, pick a uniform start and, if below the heightmap, walk a
vein. -/
def orePlace (oreSeed : Int) (c : ChunkData) (chunkX chunkZ : Int)
    (heights : Nat → Nat → Int) : ChunkData :=
  let st0 := newChunkRNG oreSeed chunkX chunkZ 500
  (oresTable.foldl
    (fun (acc : ChunkData × Nat) ore =>
      (List.range ore.attempts).foldl
        (fun (acc : ChunkData × Nat) _ =>
          let r1 := chunkRNGNextN acc.2 16
          let r2 := chunkRNGNextN r1.2 (ore.maxY - ore.minY)
          let r3 := chunkRNGNextN r2.2 16
          let x := r1.1
          let y := ore.minY + (r2.1 : Int)
          let z := r3.1
          if heights x z ≤ y then (acc.1, r3.2)
          else placeVeinLoop heights ore.block ore.veinSize acc.1 (x : Int) y (z : Int) r3.2)
        acc)
    (c, st0)).1

/-- `treesForBiome(biome)`. -/
def treesForBiome (biome : Nat) : Nat :=
  if biome = biomeDesert then 0
  else if biome = biomeOcean ∨ biome = biomeBeach then 0
  else if biome = biomePlains ∨ biome = biomeSavanna then 1
  else if biome = biomeTundra ∨ biome = biomeSnowyTaiga then 4
  else if biome = biomeTaiga then 6
  else if biome = biomeForest then 8
  else if biome = biomeDarkForest then 10
  else if biome = biomeJungle then 12
  else 2

/-- `setIfInBounds`. -/
def setIfInBounds (c : ChunkData) (x y z : Int) (state : Nat) : ChunkData :=
  if 0 ≤ x ∧ x < 16 ∧ 0 ≤ z ∧ z < 16 ∧ 0 ≤ y ∧ y < 256 then
    c.setBlock x.toNat y.toNat z.toNat state
  else c

/-- `TreeGenerator.placeOak`: trunk of height 4–6 plus a 4-layer canopy; the
corner-skip RNG draw happens only when the first three conjuncts of Go's
short-circuit `&&` hold. -/
def placeOak (c : ChunkData) (x baseY z : Int) (st : Nat) : ChunkData × Nat :=
  let r := chunkRNGNextN st 3
  let trunkHeight : Int := 4 + (r.1 : Int)
  let st := r.2
  if baseY + trunkHeight + 2 > 255 then (c, st)
  else
    let c :=
      (intRange baseY (baseY + trunkHeight - 1)).foldl
        (fun c y => setIfInBounds c x y z (blockLog <<< 4 ||| logOak)) c
    let leafBase := baseY + trunkHeight - 2
    (intRange 0 3).foldl
      (fun (acc : ChunkData × Nat) dy =>
        let y := leafBase + dy
        let radius : Int := if dy ≥ 2 then 1 else 2
        (intRange (-radius) radius).foldl
          (fun (acc : ChunkData × Nat) dx =>
            (intRange (-radius) radius).foldl
              (fun (acc : ChunkData × Nat) dz =>
                let lx := x + dx
                let lz := z + dz
                if lx < 0 ∨ 16 ≤ lx ∨ lz < 0 ∨ 16 ≤ lz then acc
                else if dx = 0 ∧ dz = 0 ∧ dy < trunkHeight - (leafBase - baseY) then acc
                else if radius = 2 ∧ (if dx < 0 then -dx else dx) = 2 ∧
                    (if dz < 0 then -dz else dz) = 2 then
                  let r := chunkRNGNextN acc.2 2
                  if r.1 = 0 then (acc.1, r.2)
                  else if acc.1.getBlock lx.toNat y.toNat lz.toNat = 0 then
                    (acc.1.setBlock lx.toNat y.toNat lz.toNat (blockLeaves <<< 4 ||| leavesOak),
                      r.2)
                  else (acc.1, r.2)
                else if acc.1.getBlock lx.toNat y.toNat lz.toNat = 0 then
                  (acc.1.setBlock lx.toNat y.toNat lz.toNat (blockLeaves <<< 4 ||| leavesOak),
                    acc.2)
                else acc)
              acc)
          acc)
      (c, st)

/-- `TreeGenerator.placeBirch`: like oak with height 5–6 and birch
log/leaf variants. -/
def placeBirch (c : ChunkData) (x baseY z : Int) (st : Nat) : ChunkData × Nat :=
  let r := chunkRNGNextN st 2
  let trunkHeight : Int := 5 + (r.1 : Int)
  let st := r.2
  if baseY + trunkHeight + 2 > 255 then (c, st)
  else
    let c :=
      (intRange baseY (baseY + trunkHeight - 1)).foldl
        (fun c y => setIfInBounds c x y z (blockLog <<< 4 ||| logBirch)) c
    let leafBase := baseY + trunkHeight - 2
    (intRange 0 3).foldl
      (fun (acc : ChunkData × Nat) dy =>
        let y := leafBase + dy
        let radius : Int := if dy ≥ 2 then 1 else 2
        (intRange (-radius) radius).foldl
          (fun (acc : ChunkData × Nat) dx =>
            (intRange (-radius) radius).foldl
              (fun (acc : ChunkData × Nat) dz =>
                let lx := x + dx
                let lz := z + dz
                if lx < 0 ∨ 16 ≤ lx ∨ lz < 0 ∨ 16 ≤ lz then acc
                else if dx = 0 ∧ dz = 0 ∧ dy < trunkHeight - (leafBase - baseY) then acc
                else if radius = 2 ∧ (if dx < 0 then -dx else dx) = 2 ∧
                    (if dz < 0 then -dz else dz) = 2 then
                  let r := chunkRNGNextN acc.2 2
                  if r.1 = 0 then (acc.1, r.2)
                  else if acc.1.getBlock lx.toNat y.toNat lz.toNat = 0 then
                    (acc.1.setBlock lx.toNat y.toNat lz.toNat
                        (blockLeaves <<< 4 ||| leavesBirch), r.2)
                  else (acc.1, r.2)
                else if acc.1.getBlock lx.toNat y.toNat lz.toNat = 0 then
                  (acc.1.setBlock lx.toNat y.toNat lz.toNat (blockLeaves <<< 4 ||| leavesBirch),
                    acc.2)
                else acc)
              acc)
          acc)
      (c, st)

/-- `TreeGenerator.placeSpruce`: conical canopy; only the trunk height draws
from the RNG. -/
def placeSpruce (c : ChunkData) (x baseY z : Int) (st : Nat) : ChunkData × Nat :=
  let r := chunkRNGNextN st 4
  let trunkHeight : Int := 6 + (r.1 : Int)
  let st := r.2
  if baseY + trunkHeight + 1 > 255 then (c, st)
  else
    let c :=
      (intRange baseY (baseY + trunkHeight - 1)).foldl
        (fun c y => setIfInBounds c x y z (blockLog <<< 4 ||| logSpruce)) c
    let c :=
      (intRange 1 trunkHeight).foldl
        (fun c dy =>
          let y := baseY + dy
          let radius0 := (trunkHeight - dy) / 2
          let radius := if radius0 > 3 then 3 else radius0
          if radius ≤ 0 ∧ dy < trunkHeight then c
          else if 2 ≤ radius ∧ dy % 2 = 0 then c
          else
            (intRange (-radius) radius).foldl
              (fun c dx =>
                (intRange (-radius) radius).foldl
                  (fun c dz =>
                    let lx := x + dx
                    let lz := z + dz
                    if lx < 0 ∨ 16 ≤ lx ∨ lz < 0 ∨ 16 ≤ lz then c
                    else if dx = 0 ∧ dz = 0 then c
                    else if c.getBlock lx.toNat y.toNat lz.toNat = 0 then
                      c.setBlock lx.toNat y.toNat lz.toNat (blockLeaves <<< 4 ||| leavesSpruce)
                    else c)
                  c)
              c)
        c
    let topY := baseY + trunkHeight
    if topY < 256 then
      (c.setBlock x.toNat topY.toNat z.toNat (blockLeaves <<< 4 ||| leavesSpruce), st)
    else (c, st)

/-- `TreeGenerator.placeTree`: species by biome. -/
def placeTree (c : ChunkData) (x baseY z : Int) (biome : Nat) (st : Nat) : ChunkData × Nat :=
  if biome = biomeTaiga ∨ biome = biomeSnowyTaiga then placeSpruce c x baseY z st
  else if biome = biomeForest ∨ biome = biomeDarkForest then
    let r := chunkRNGNextN st 3
    if r.1 = 0 then placeBirch c x baseY z r.2
    else placeOak c x baseY z r.2
  else placeOak c x baseY z st

/-- `TreeGenerator.placeVegetation`: 20 biome-gated candidates (cacti and
dead bushes on desert sand, tall grass and flowers on grass, sparse tall
grass in taiga/tundra).  RNG draws follow Go's evaluation order, including
the short-circuited `else if` draws. -/
def placeVegetation (c : ChunkData) (heights : Nat → Nat → Int) (st : Nat) :
    ChunkData × Nat :=
  (List.range 20).foldl
    (fun (acc : ChunkData × Nat) _ =>
      let r1 := chunkRNGNextN acc.2 16
      let r2 := chunkRNGNextN r1.2 16
      let x := r1.1
      let z := r2.1
      let y := heights x z
      if y ≤ (seaLevel : Int) ∨ 255 ≤ y then (acc.1, r2.2)
      else
        let biome := acc.1.biomes (z * 16 + x)
        let topBlock := acc.1.getBlock x y.toNat z
        if biome = biomeDesert then
          if topBlock ≠ blockSand <<< 4 then (acc.1, r2.2)
          else
            let r3 := chunkRNGNextN r2.2 8
            if r3.1 = 0 then
              let r4 := chunkRNGNextN r3.2 3
              let h : Int := 1 + (r4.1 : Int)
              ((intRange 1 (min h (255 - y))).foldl
                  (fun c dy => c.setBlock x (y + dy).toNat z (blockCactus <<< 4)) acc.1,
                r4.2)
            else
              let r4 := chunkRNGNextN r3.2 4
              if r4.1 = 0 then (acc.1.setBlock x (y + 1).toNat z (blockDeadBush <<< 4), r4.2)
              else (acc.1, r4.2)
        else if biome = biomePlains ∨ biome = biomeForest ∨ biome = biomeDarkForest ∨
            biome = biomeSavanna ∨ biome = biomeJungle then
          if topBlock ≠ blockGrass <<< 4 then (acc.1, r2.2)
          else
            let r3 := chunkRNGNextN r2.2 3
            if r3.1 = 0 then
              (acc.1.setBlock x (y + 1).toNat z (blockTallGrass <<< 4 ||| 1), r3.2)
            else
              let r4 := chunkRNGNextN r3.2 8
              if r4.1 = 0 then (acc.1.setBlock x (y + 1).toNat z (blockFlower <<< 4), r4.2)
              else (acc.1, r4.2)
        else if biome = biomeTaiga ∨ biome = biomeSnowyTaiga ∨ biome = biomeTundra then
          if topBlock ≠ blockGrass <<< 4 then (acc.1, r2.2)
          else
            let r3 := chunkRNGNextN r2.2 6
            if r3.1 = 0 then
              (acc.1.setBlock x (y + 1).toNat z (blockTallGrass <<< 4 ||| 1), r3.2)
            else (acc.1, r3.2)
        else (acc.1, r2.2))
    (c, st)

/-- `TreeGenerator.Decorate`: per-chunk RNG with salt 600; trees gated by the
chunk-centre biome count, grass top block and height window, then the
vegetation pass. -/
def treeDecorate (treeSeed : Int) (c : ChunkData) (chunkX chunkZ : Int)
    (heights : Nat → Nat → Int) : ChunkData :=
  let st0 := newChunkRNG treeSeed chunkX chunkZ 600
  let centerBiome := c.biomes (8 * 16 + 8)
  let treeCount := treesForBiome centerBiome
  let acc :=
    (List.range treeCount).foldl
      (fun (acc : ChunkData × Nat) _ =>
        let r1 := chunkRNGNextN acc.2 16
        let r2 := chunkRNGNextN r1.2 16
        let x := r1.1
        let z := r2.1
        let y := heights x z
        if y ≤ (seaLevel : Int) ∨ 250 ≤ y then (acc.1, r2.2)
        else if acc.1.getBlock x y.toNat z ≠ blockGrass <<< 4 then (acc.1, r2.2)
        else
          let localBiome := acc.1.biomes (z * 16 + x)
          placeTree acc.1 (x : Int) (y + 1) (z : Int) localBiome r2.2)
      (c, st0)
  (placeVegetation acc.1 heights acc.2).1

/-- `DefaultGenerator.Generate`: the four passes — terrain + biomes (with
the heightmap computed once and threaded through), caves, ores,
decoration. -/
def dgGenerate (O : NoiseOracle) (g : DefaultGenerator) (chunkX chunkZ : Int) : ChunkData :=
  let step1 :=
    (List.range 16).foldl
      (fun (acc : ChunkData × (Nat → Nat → Int)) (x : Nat) =>
        (List.range 16).foldl
          (fun (acc : ChunkData × (Nat → Nat → Int)) (z : Nat) =>
            let bx := chunkX * 16 + (x : Int)
            let bz := chunkZ * 16 + (z : Int)
            let biome := biomeAt O g.biomeTempPerm g.biomeRainPerm g.biomeTerrainPerm bx bz
            let c := acc.1.setBiome x z biome
            let height := terrainHeight O g bx bz biome
            let heights := fun x2 z2 => if x2 = x ∧ z2 = z then height else acc.2 x2 z2
            (fillColumn O g c x z height biome, heights))
          acc)
      (emptyChunk, fun _ _ => 0)
  let c := carve O g step1.1 chunkX chunkZ step1.2
  let c := orePlace g.oreSeed c chunkX chunkZ step1.2
  treeDecorate g.treeSeed c chunkX chunkZ step1.2

/-- `DefaultGenerator.HeightAt(bx, bz)`. -/
def dgHeightAt (O : NoiseOracle) (g : DefaultGenerator) (blockX blockZ : Int) : Int :=
  let biome := biomeAt O g.biomeTempPerm g.biomeRainPerm g.biomeTerrainPerm blockX blockZ
  terrainHeight O g blockX blockZ biome

/- ===================== KeepAlive watchdog (conn package) ===================== -/

/-- The per-connection KeepAlive state touched by `keepAliveLoop` and the
Play-phase `KeepAlive` handler: the loop-local `id` counter, the send
timestamp (seconds), the acknowledged flag, and whether the connection was
torn down by the watchdog. -/
structure KAState where
  id : Int
  lastKeepAliveSent : Nat
  keepAliveAcked : Bool
  disconnected : Bool

/-- State when `keepAliveLoop` starts: `var id int32` is 0, no packet sent
yet. -/
def kaInit : KAState :=
  { id := 0, lastKeepAliveSent := 0, keepAliveAcked := false, disconnected := false }

/-- One firing of the 15-second ticker at absolute time `now` (seconds):
if the previous id is unacknowledged and more than 30 s have passed since
the last send, disconnect; otherwise increment the id, record `now` as the
send time, clear the flag and send the KeepAlive. -/
def kaTick (s : KAState) (now : Nat) : KAState :=
  if s.disconnected then s
  else if s.keepAliveAcked = false ∧ 0 < s.id ∧ 30 < now - s.lastKeepAliveSent then
    { s with disconnected := true }
  else
    { id := s.id + 1, lastKeepAliveSent := now, keepAliveAcked := false, disconnected := false }

/-- The Play-phase `0x00 KeepAlive` handler: mark acknowledged iff the echoed
id matches the last one sent. -/
def kaAck (s : KAState) (echoedId : Int) : KAState :=
  if echoedId = s.id then { s with keepAliveAcked := true } else s

/-- A client that never echoes, with the ticker firing on schedule at
t = 15 s, 30 s, …, 15·n s: the watchdog state after `n` ticks. -/
def kaRunSilent : Nat → KAState
  | 0 => kaInit
  | n + 1 => kaTick (kaRunSilent n) (15 * (n + 1))

/- ============== Movement broadcasts (conn / player packages) ============== -/

/-- The movement-related clientbound packets of `handlePositionUpdate` and
`handleLookUpdate`, with fixed-point coordinates and angle bytes already
computed (the float→fixed conversions `FixedPoint` and `DegreesToAngle`
happen upstream). -/
inductive MovePacket where
  | entityMoveLook (dx dy dz yaw pitch : Int) (onGround : Bool)
  | relEntityMove (dx dy dz : Int) (onGround : Bool)
  | entityTeleport (x y z yaw pitch : Int) (onGround : Bool)
  | entityLook (yaw pitch : Int) (onGround : Bool)
  | entityHeadRotation (headYaw : Int)
deriving DecidableEq

/-- `player.DeltaFitsInByte`: all three deltas in `[-128, 127]`. -/
def deltaFitsInByte (dx dy dz : Int) : Bool :=
  decide (-128 ≤ dx) && decide (dx ≤ 127) && decide (-128 ≤ dy) && decide (dy ≤ 127) &&
    decide (-128 ≤ dz) && decide (dz ≤ 127)

/-- The packets `Connection.handlePositionUpdate` emits to the trackers of
the moved player, given the old and new fixed-point coordinates returned by
`setPositionAndUpdateChunks` (`floor(coord·32)` before and after). -/
def handlePositionUpdatePackets (oldFX oldFY oldFZ newFX newFY newFZ : Int)
    (yawAngle pitchAngle : Int) (onGround posChanged lookChanged : Bool) : List MovePacket :=
  let dx := newFX - oldFX
  let dy := newFY - oldFY
  let dz := newFZ - oldFZ
  (if posChanged && lookChanged && deltaFitsInByte dx dy dz then
      [MovePacket.entityMoveLook dx dy dz yawAngle pitchAngle onGround]
    else if posChanged && !lookChanged && deltaFitsInByte dx dy dz then
      [MovePacket.relEntityMove dx dy dz onGround]
    else if posChanged then
      [MovePacket.entityTeleport newFX newFY newFZ yawAngle pitchAngle onGround]
    else []) ++
  (if lookChanged then [MovePacket.entityHeadRotation yawAngle] else [])

/-- The packets `Connection.handleLookUpdate` emits to the trackers. -/
def handleLookUpdatePackets (yawAngle pitchAngle : Int) (onGround : Bool) : List MovePacket :=
  [MovePacket.entityLook yawAngle pitchAngle onGround,
   MovePacket.entityHeadRotation yawAngle]

/-- The three serverbound movement packets of the Play dispatcher. -/
inductive MoveKind where
  | positionOnly
  | lookOnly
  | positionAndLook

/-- The Play-phase dispatch: `0x04 Player Position` calls
`handlePositionUpdate(…, posChanged=true, lookChanged=false)`,
`0x06 Position And Look` passes `(true, true)`, and `0x05 Player Look`
calls `handleLookUpdate`. -/
def playMovePackets (k : MoveKind) (oldFX oldFY oldFZ newFX newFY newFZ : Int)
    (yawAngle pitchAngle : Int) (onGround : Bool) : List MovePacket :=
  match k with
  | MoveKind.positionOnly =>
    handlePositionUpdatePackets oldFX oldFY oldFZ newFX newFY newFZ yawAngle pitchAngle
      onGround true false
  | MoveKind.positionAndLook =>
    handlePositionUpdatePackets oldFX oldFY oldFZ newFX newFY newFZ yawAngle pitchAngle
      onGround true true
  | MoveKind.lookOnly => handleLookUpdatePackets yawAngle pitchAngle onGround

/- ============== Player manager tracking (player package) ============== -/

/-- The tracking-relevant slice of `player.Player`: entity id, chunk
coordinates (`ChunkX`/`ChunkZ`), and the `trackedPlayers` set. -/
structure TPlayer where
  eid : Int
  cx : Int
  cz : Int
  tracked : List Int

/-- `Player.IsTracking`. -/
def TPlayer.isTracking (p : TPlayer) (entityID : Int) : Bool := decide (entityID ∈ p.tracked)

/-- `Player.Track` (map insert: membership is what matters). -/
def TPlayer.track (p : TPlayer) (entityID : Int) : TPlayer :=
  if entityID ∈ p.tracked then p else { p with tracked := entityID :: p.tracked }

/-- `Player.Untrack` (map delete). -/
def TPlayer.untrack (p : TPlayer) (entityID : Int) : TPlayer :=
  { p with tracked := p.tracked.filter (fun e => decide (e ≠ entityID)) }

/-- `player.InViewDistance`: Chebyshev chunk distance at most `viewDist`. -/
def inViewDistance (cx1 cz1 cx2 cz2 viewDist : Int) : Bool :=
  let dx := cx1 - cx2
  let dx := if dx < 0 then -dx else dx
  let dz := cz1 - cz2
  let dz := if dz < 0 then -dz else dz
  decide (dx ≤ viewDist) && decide (dz ≤ viewDist)

/-- The tracking-relevant slice of `player.Manager`: the registered players
and the view distance.  (The Go map `players` is unordered; the list order
is immaterial to every operation below.) -/
structure TManager where
  viewDistance : Int
  players : List TPlayer

/-- `Manager.Add`: for every existing player within view distance,
`spawnPlayerFor(other, p)` sets `other.tracked[p]` and
`spawnPlayerFor(p, other)` sets `p.tracked[other]`. -/
def mAdd (m : TManager) (p : TPlayer) : TManager :=
  let others := m.players.map
    (fun other =>
      if inViewDistance p.cx p.cz other.cx other.cz m.viewDistance then other.track p.eid
      else other)
  let newP := m.players.foldl
    (fun q other =>
      if inViewDistance p.cx p.cz other.cx other.cz m.viewDistance then q.track other.eid
      else q)
    p
  { m with players := others ++ [newP] }

/-- `Manager.Remove`: drop the player, and every remaining player that was
tracking it sends EntityDestroy and untracks it. -/
def mRemove (m : TManager) (eid : Int) : TManager :=
  { m with
    players :=
      (m.players.filter (fun q => decide (q.eid ≠ eid))).map
        (fun other => if other.isTracking eid then other.untrack eid else other) }

/-- The effect of one `Manager.UpdateTracking` loop iteration on the moved
player: enter-range spawns both ways (the moved side guarded by
`!movedTracksOther`), leave-range destroys both ways. -/
def updTrackMoved (vd : Int) (mv other : TPlayer) : TPlayer :=
  let inRange := inViewDistance mv.cx mv.cz other.cx other.cz vd
  if inRange && !(other.isTracking mv.eid) then
    if !(mv.isTracking other.eid) then mv.track other.eid else mv
  else if !inRange && other.isTracking mv.eid then
    if mv.isTracking other.eid then mv.untrack other.eid else mv
  else mv

/-- The effect of the same iteration on the other player (its branch
conditions read only its own pre-state bit and the moved player's
position). -/
def updTrackOther (vd : Int) (mv other : TPlayer) : TPlayer :=
  let inRange := inViewDistance mv.cx mv.cz other.cx other.cz vd
  if inRange && !(other.isTracking mv.eid) then other.track mv.eid
  else if !inRange && other.isTracking mv.eid then other.untrack mv.eid
  else other

/-- `Manager.UpdateTracking(moved)`: walk all other players, updating the
pair bits.  The Go loop reads each other player's bit before writing it and
touches only the `(moved, other)` pair per iteration, so with distinct
entity ids it equals this fold (moved accumulates across iterations, each
other player is updated from its pre-loop state). -/
def mUpdateTracking (m : TManager) (eid : Int) : TManager :=
  match m.players.find? (fun p => decide (p.eid = eid)) with
  | none => m
  | some moved0 =>
    let mvF :=
      (m.players.filter (fun p => decide (p.eid ≠ eid))).foldl
        (updTrackMoved m.viewDistance) moved0
    { m with
      players := m.players.map
        (fun p => if p.eid = eid then mvF else updTrackOther m.viewDistance moved0 p) }

/-- `Player.SetPosition` as seen by the manager: the moved player's chunk
coordinates change. -/
def mSetPos (m : TManager) (eid cx cz : Int) : TManager :=
  { m with
    players := m.players.map
      (fun p => if p.eid = eid then { p with cx := cx, cz := cz } else p) }

/-- A position update followed by its tracking update
(`handlePositionUpdate` always ends with `c.players.UpdateTracking`). -/
def mMove (m : TManager) (eid cx cz : Int) : TManager :=
  mUpdateTracking (mSetPos m eid cx cz) eid

/-- States reachable from an empty manager by `Add` (with a fresh entity id,
as allocated by `AllocateEntityID`, and the empty tracked set of
`NewPlayer`), `Remove`, and position updates. -/
inductive ReachM : TManager → Prop where
  | init (vd : Int) : ReachM ⟨vd, []⟩
  | add (m : TManager) (eid cx cz : Int) : ReachM m →
      eid ∉ m.players.map TPlayer.eid → ReachM (mAdd m ⟨eid, cx, cz, []⟩)
  | remove (m : TManager) (eid : Int) : ReachM m → ReachM (mRemove m eid)
  | move (m : TManager) (eid cx cz : Int) : ReachM m → ReachM (mMove m eid cx cz)

/-- The visibility invariant: for every pair of distinct registered players,
A tracks B exactly when their Chebyshev chunk distance is at most the view
distance. -/
def trackingInvariant (m : TManager) : Prop :=
  ∀ a ∈ m.players, ∀ b ∈ m.players, a.eid ≠ b.eid →
    (b.eid ∈ a.tracked ↔ inViewDistance a.cx a.cz b.cx b.cz m.viewDistance = true)

/-- Registered entity ids are pairwise distinct. -/
def eidsNodup (m : TManager) : Prop := (m.players.map TPlayer.eid).Nodup

/-- Every tracked entity id refers to a registered player other than the
tracker itself (an auxiliary invariant of the manager operations). -/
def trackedRegistered (m : TManager) : Prop :=
  ∀ a ∈ m.players, ∀ e ∈ a.tracked, e ≠ a.eid ∧ e ∈ m.players.map TPlayer.eid

/- ============================== Theorems ============================== -/

theorem cfb8_dec_enc_aux (E : List Nat → Nat) :
    ∀ (P iv : List Nat),
      cfb8XorKeyStream E false iv (cfb8XorKeyStream E true iv P).2 =
        ((cfb8XorKeyStream E true iv P).1, P) := by
  intro P
  induction P with
  | nil => intro iv; rfl
  | cons b rest ih =>
    intro iv
    simp only [cfb8XorKeyStream, if_pos, if_neg]
    simp only [Bool.false_eq_true, if_false, if_true]
    rw [ih (shiftIn iv (b ^^^ E iv))]
    have hx : b ^^^ E iv ^^^ E iv = b := by
      rw [Nat.xor_assoc, Nat.xor_self, Nat.xor_zero]
    simp [hx]

theorem cfb8_byteAtATime_go (E : List Nat → Nat) (enc : Bool) :
    ∀ (src : List Nat) (iv acc : List Nat),
      src.foldl
          (fun st b =>
            let r := cfb8XorKeyStream E enc st.1 [b]
            (r.1, st.2 ++ r.2))
          (iv, acc) =
        ((cfb8XorKeyStream E enc iv src).1, acc ++ (cfb8XorKeyStream E enc iv src).2) := by
  intro src
  induction src with
  | nil => intro iv acc; simp [cfb8XorKeyStream]
  | cons b rest ih =>
    intro iv acc
    simp only [List.foldl_cons, cfb8XorKeyStream] at ih ⊢
    rw [ih]
    simp

theorem cfb8_byteAtATime_eq (E : List Nat → Nat) (enc : Bool) (iv src : List Nat) :
    cfb8ByteAtATime E enc iv src = cfb8XorKeyStream E enc iv src := by
  unfold cfb8ByteAtATime
  rw [cfb8_byteAtATime_go]
  simp

/-- C7: with the encrypt and decrypt streams initialised from the same block
cipher and the same IV, decrypting the CFB8 encryption of any byte sequence
yields the sequence back, and processing byte-at-a-time (one
`XORKeyStream` call per byte) agrees with a single call in both
directions — both shift the ciphertext byte into the feedback register. -/
theorem c7_cfb8_symmetry :
    ∀ (E : List Nat → Nat) (iv P : List Nat),
      cfb8Decrypt E iv (cfb8Encrypt E iv P) = P ∧
      (cfb8ByteAtATime E false iv (cfb8ByteAtATime E true iv P).2).2 = P ∧
      cfb8ByteAtATime E true iv P = cfb8XorKeyStream E true iv P ∧
      cfb8ByteAtATime E false iv P = cfb8XorKeyStream E false iv P := by
  intro E iv P
  refine ⟨?_, ?_, cfb8_byteAtATime_eq E true iv P, cfb8_byteAtATime_eq E false iv P⟩
  · unfold cfb8Decrypt cfb8Encrypt
    rw [cfb8_dec_enc_aux]
  · rw [cfb8_byteAtATime_eq, cfb8_byteAtATime_eq]
    show cfb8Decrypt E iv (cfb8Encrypt E iv P) = P
    unfold cfb8Decrypt cfb8Encrypt
    rw [cfb8_dec_enc_aux]

/-- C6: for each x in {0, 1, 127, 128, 255, 25565, 2147483647, −1}, decoding
the VarInt encoding of x yields x and the advertised byte count, the
encoder writes exactly `VarIntSize x` bytes, and the sizes are
1, 1, 1, 2, 2, 3, 5, 5 respectively (negative values fill all 5 bytes). -/
theorem c6_varint_roundtrip :
    (readVarInt (putVarInt 0) = some (0, 1) ∧ (putVarInt 0).length = varIntSize 0 ∧
      varIntSize 0 = 1) ∧
    (readVarInt (putVarInt 1) = some (1, 1) ∧ (putVarInt 1).length = varIntSize 1 ∧
      varIntSize 1 = 1) ∧
    (readVarInt (putVarInt 127) = some (127, 1) ∧ (putVarInt 127).length = varIntSize 127 ∧
      varIntSize 127 = 1) ∧
    (readVarInt (putVarInt 128) = some (128, 2) ∧ (putVarInt 128).length = varIntSize 128 ∧
      varIntSize 128 = 2) ∧
    (readVarInt (putVarInt 255) = some (255, 2) ∧ (putVarInt 255).length = varIntSize 255 ∧
      varIntSize 255 = 2) ∧
    (readVarInt (putVarInt 25565) = some (25565, 3) ∧
      (putVarInt 25565).length = varIntSize 25565 ∧ varIntSize 25565 = 3) ∧
    (readVarInt (putVarInt 2147483647) = some (2147483647, 5) ∧
      (putVarInt 2147483647).length = varIntSize 2147483647 ∧
      varIntSize 2147483647 = 5) ∧
    (readVarInt (putVarInt (-1)) = some (-1, 5) ∧
      (putVarInt (-1)).length = varIntSize (-1) ∧ varIntSize (-1) = 5) := by
  simp [putVarInt, toUInt32Rep, putVarIntLoop, readVarInt, readVarIntLoop, toInt32Rep,
    varIntSize, varIntSizeLoop]
  all_goals decide

theorem kaRunSilent_charact (n : Nat) :
    kaRunSilent (n + 1) =
      { id := (n : Int) + 1, lastKeepAliveSent := 15 * (n + 1),
        keepAliveAcked := false, disconnected := false } := by
  induction n with
  | zero => rfl
  | succ m ih =>
    show kaTick (kaRunSilent (m + 1)) (15 * (m + 2)) = _
    rw [ih]
    unfold kaTick
    have h1 : ¬(30 < 15 * (m + 2) - 15 * (m + 1)) := by omega
    simp [h1]

/-- C2 (the code, evaluated on the claim's failing scenario): a client that
never echoes a KeepAlive is never disconnected, because every 15-second
tick refreshes `lastKeepAliveSent` before sending the next id, so the
`time.Since(...) > 30s` disconnect condition can never hold under regular
ticking.  The claimed "disconnect within 30 s of the first unanswered
KeepAlive" therefore never happens: after `n` ticks (15·n seconds of
silence, for every n) the watchdog has still not disconnected. -/
theorem c2_keepalive_silent_client_never_disconnected :
    ∀ n : Nat, (kaRunSilent n).disconnected = false := by
  intro n
  cases n with
  | zero => rfl
  | succ m => rw [kaRunSilent_charact]

/-- C8: movement broadcast selection.  With fixed-point deltas
`dx = newFX − oldFX` (etc.): position+look updates whose deltas fit a
signed byte emit EntityMoveLook; position-only updates that fit emit
RelEntityMove; position updates out of byte range emit EntityTeleport with
the absolute fixed-point coordinates; look-only updates emit EntityLook;
and EntityHeadRotation accompanies every update on which the look (hence
possibly the yaw) changed — the only update kinds on which yaw can
change. -/
theorem c8_position_update_packets
    (oldFX oldFY oldFZ newFX newFY newFZ yawAngle pitchAngle : Int) (onGround : Bool) :
    (deltaFitsInByte (newFX - oldFX) (newFY - oldFY) (newFZ - oldFZ) = true →
      playMovePackets MoveKind.positionAndLook oldFX oldFY oldFZ newFX newFY newFZ
          yawAngle pitchAngle onGround =
        [MovePacket.entityMoveLook (newFX - oldFX) (newFY - oldFY) (newFZ - oldFZ)
            yawAngle pitchAngle onGround,
          MovePacket.entityHeadRotation yawAngle]) ∧
    (deltaFitsInByte (newFX - oldFX) (newFY - oldFY) (newFZ - oldFZ) = true →
      playMovePackets MoveKind.positionOnly oldFX oldFY oldFZ newFX newFY newFZ
          yawAngle pitchAngle onGround =
        [MovePacket.relEntityMove (newFX - oldFX) (newFY - oldFY) (newFZ - oldFZ) onGround]) ∧
    (deltaFitsInByte (newFX - oldFX) (newFY - oldFY) (newFZ - oldFZ) = false →
      playMovePackets MoveKind.positionAndLook oldFX oldFY oldFZ newFX newFY newFZ
          yawAngle pitchAngle onGround =
        [MovePacket.entityTeleport newFX newFY newFZ yawAngle pitchAngle onGround,
          MovePacket.entityHeadRotation yawAngle] ∧
      playMovePackets MoveKind.positionOnly oldFX oldFY oldFZ newFX newFY newFZ
          yawAngle pitchAngle onGround =
        [MovePacket.entityTeleport newFX newFY newFZ yawAngle pitchAngle onGround]) ∧
    (playMovePackets MoveKind.lookOnly oldFX oldFY oldFZ newFX newFY newFZ
        yawAngle pitchAngle onGround =
      [MovePacket.entityLook yawAngle pitchAngle onGround,
        MovePacket.entityHeadRotation yawAngle]) ∧
    (MovePacket.entityHeadRotation yawAngle ∈
        playMovePackets MoveKind.positionAndLook oldFX oldFY oldFZ newFX newFY newFZ
          yawAngle pitchAngle onGround ∧
      MovePacket.entityHeadRotation yawAngle ∈
        playMovePackets MoveKind.lookOnly oldFX oldFY oldFZ newFX newFY newFZ
          yawAngle pitchAngle onGround) := by
  refine ⟨?_, ?_, ?_, rfl, ?_, by simp [playMovePackets, handleLookUpdatePackets]⟩
  · intro h
    simp [playMovePackets, handlePositionUpdatePackets, h]
  · intro h
    simp [playMovePackets, handlePositionUpdatePackets, h]
  · intro h
    constructor
    · simp [playMovePackets, handlePositionUpdatePackets, h]
    · simp [playMovePackets, handlePositionUpdatePackets, h]
  · by_cases h : deltaFitsInByte (newFX - oldFX) (newFY - oldFY) (newFZ - oldFZ) = true
    · simp [playMovePackets, handlePositionUpdatePackets, h]
    · simp [playMovePackets, handlePositionUpdatePackets, h]

theorem ovLookup_erase_self (bs : List ((Int × Int × Int) × Int)) (p : Int × Int × Int) :
    ovLookup (ovErase bs p) p = none := by
  induction bs with
  | nil => rfl
  | cons e rest ih =>
    by_cases h : e.1 = p
    · simpa [ovErase, h] using ih
    · simpa [ovErase, ovLookup, h] using ih

theorem ovLookup_erase_ne (bs : List ((Int × Int × Int) × Int)) (p q : Int × Int × Int)
    (hpq : p ≠ q) : ovLookup (ovErase bs q) p = ovLookup bs p := by
  induction bs with
  | nil => rfl
  | cons e rest ih =>
    by_cases h : e.1 = q
    · have hqp : ¬q = p := fun hc => hpq hc.symm
      simpa [ovErase, ovLookup, h, hqp] using ih
    · by_cases h3 : e.1 = p
      · simp [ovErase, ovLookup, h, h3, hpq]
      · simpa [ovErase, ovLookup, h, h3] using ih

theorem ovLookup_insert_self (bs : List ((Int × Int × Int) × Int)) (p : Int × Int × Int)
    (v : Int) : ovLookup (ovInsert bs p v) p = some v := by
  simp [ovInsert, ovLookup]

theorem ovLookup_insert_ne (bs : List ((Int × Int × Int) × Int)) (p q : Int × Int × Int)
    (v : Int) (hpq : p ≠ q) : ovLookup (ovInsert bs q v) p = ovLookup bs p := by
  have h : ¬q = p := fun hc => hpq hc.symm
  simp only [ovInsert, ovLookup, h, if_false]
  exact ovLookup_erase_ne bs p q hpq

theorem setBlock_generator (w : GoWorld) (x y z stateID : Int) :
    (w.setBlock x y z stateID).generator = w.generator := by
  unfold GoWorld.setBlock
  by_cases h : stateID = w.baseValue x y z <;> simp [h]

theorem setBlock_baseValue (w : GoWorld) (x y z stateID a b c : Int) :
    (w.setBlock x y z stateID).baseValue a b c = w.baseValue a b c := by
  unfold GoWorld.baseValue
  rw [setBlock_generator]

theorem setBlock_lookup_self (w : GoWorld) (x y z stateID : Int) :
    ovLookup (w.setBlock x y z stateID).blocks (x, y, z) =
      if stateID = w.baseValue x y z then none else some stateID := by
  unfold GoWorld.setBlock
  by_cases h : stateID = w.baseValue x y z
  · simp [h, ovLookup_erase_self]
  · simp [h, ovLookup_insert_self]

theorem setBlock_lookup_ne (w : GoWorld) (x y z stateID : Int) (p : Int × Int × Int)
    (hp : p ≠ (x, y, z)) :
    ovLookup (w.setBlock x y z stateID).blocks p = ovLookup w.blocks p := by
  unfold GoWorld.setBlock
  by_cases h : stateID = w.baseValue x y z
  · simp only [h, if_true]
    exact ovLookup_erase_ne w.blocks p (x, y, z) hp
  · simp only [h, if_false]
    exact ovLookup_insert_ne w.blocks p (x, y, z) stateID hp

/-- No stored override equals the base value (single-step preservation). -/
theorem setBlock_preserves_no_base (w : GoWorld) (x y z stateID : Int)
    (ih : ∀ p v, ovLookup w.blocks p = some v → v ≠ w.baseValue p.1 p.2.1 p.2.2) :
    ∀ p v, ovLookup (w.setBlock x y z stateID).blocks p = some v →
      v ≠ (w.setBlock x y z stateID).baseValue p.1 p.2.1 p.2.2 := by
  intro p v hv
  rw [setBlock_baseValue]
  by_cases hp : p = (x, y, z)
  · subst hp
    rw [setBlock_lookup_self] at hv
    by_cases h : stateID = w.baseValue x y z
    · rw [if_pos h] at hv
      exact absurd hv (by simp)
    · rw [if_neg h] at hv
      have : v = stateID := by
        have := hv
        simp at this
        omega
      subst this
      exact h
  · rw [setBlock_lookup_ne w x y z stateID p hp] at hv
    exact ih p v hv

theorem applyWorldOps_no_base (ops : List WorldSetOp) :
    ∀ (w : GoWorld),
      (∀ p v, ovLookup w.blocks p = some v → v ≠ w.baseValue p.1 p.2.1 p.2.2) →
      ∀ p v, ovLookup (applyWorldOps w ops).blocks p = some v →
        v ≠ (applyWorldOps w ops).baseValue p.1 p.2.1 p.2.2 := by
  induction ops with
  | nil => intro w hw; exact hw
  | cons o rest ih =>
    intro w hw
    exact ih (w.setBlock o.x o.y o.z o.state)
      (setBlock_preserves_no_base w o.x o.y o.z o.state hw)

/-- C5: immediately after `set_block(x, y, z, state)` the override map
contains `(x, y, z)` iff `state` differs from the generator's base value
there (the map holds exactly `state` in that case, and writing back the
base removes the entry); consequently, in any world built from a fresh
`NewWorld` by a sequence of `set_block` calls, no stored override ever
equals the base value. -/
theorem c5_override_collapse :
    (∀ (w : GoWorld) (x y z state : Int),
      ovLookup (w.setBlock x y z state).blocks (x, y, z) =
        if state = w.baseValue x y z then none else some state) ∧
    (∀ (gen : Int → Int → ChunkData) (ops : List WorldSetOp) (p : Int × Int × Int) (v : Int),
      ovLookup (applyWorldOps (mkWorld gen) ops).blocks p = some v →
        v ≠ (applyWorldOps (mkWorld gen) ops).baseValue p.1 p.2.1 p.2.2) := by
  constructor
  · exact setBlock_lookup_self
  · intro gen ops p v hv
    refine applyWorldOps_no_base ops (mkWorld gen) ?_ p v hv
    intro q u hu
    simp [mkWorld, ovLookup, List.find?] at hu

/-- C4 counterexample: the claim "get_block returns 0 for y outside
[0, 256) regardless of preceding set_block calls" is false.  `GetBlock`
consults the override map before the y-range guard, and `SetBlock` at an
out-of-range y treats the base as 0 and stores any non-zero state:
after `set_block(0, −1, 0, 7)` on a fresh flat world, `get_block(0, −1, 0)`
returns 7, not 0. -/
theorem c4_counterexample :
    ((mkWorld (fun _ _ => flatGenerate)).setBlock 0 (-1) 0 7).getBlock 0 (-1) 0 = 7 ∧
      ((mkWorld (fun _ _ => flatGenerate)).setBlock 0 (-1) 0 7).getBlock 0 (-1) 0 ≠ 0 := by
  constructor <;> decide

/-- C4 (amended): for y outside [0, 256), `get_block(x, y, z)` returns the
stored override at (x, y, z) when one exists and 0 otherwise, for every
world state. -/
theorem c4_out_of_range_get_block (w : GoWorld) (x y z : Int) (hy : y < 0 ∨ 256 ≤ y) :
    w.getBlock x y z = (ovLookup w.blocks (x, y, z)).getD 0 := by
  unfold GoWorld.getBlock
  cases h : ovLookup w.blocks (x, y, z) with
  | some s => simp
  | none => simp [hy]

theorem c4_witness :
    ((-1 : Int) < 0 ∨ 256 ≤ (-1 : Int)) ∧
      (mkWorld (fun _ _ => flatGenerate)).getBlock 5 (-1) 3 =
        (ovLookup (mkWorld (fun _ _ => flatGenerate)).blocks (5, -1, 3)).getD 0 :=
  ⟨Or.inl (by decide),
    c4_out_of_range_get_block (mkWorld (fun _ _ => flatGenerate)) 5 (-1) 3
      (Or.inl (by decide))⟩

theorem setBlock_sections_covered (c : ChunkData) (x y z state : Nat) (i : Nat)
    (h : (c.setBlock x y z state).sections i ≠ none) :
    c.sections i ≠ none ∨ (state ≠ 0 ∧ y >>> 4 = i) := by
  cases hsec : c.sections (y >>> 4) with
  | none =>
    by_cases hs : state = 0
    · simp only [ChunkData.setBlock, hsec, hs, if_pos] at h
      exact Or.inl h
    · by_cases hi : i = y >>> 4
      · exact Or.inr ⟨hs, hi.symm⟩
      · simp only [ChunkData.setBlock, hsec, if_neg hs, if_neg hi] at h
        exact Or.inl h
  | some s =>
    by_cases hi : i = y >>> 4
    · subst hi
      exact Or.inl (by rw [hsec]; exact fun hc => Option.noConfusion hc)
    · simp only [ChunkData.setBlock, hsec, if_neg hi] at h
      exact Or.inl h

theorem applySetOps_sections_covered (ops : List SetOp) :
    ∀ (c : ChunkData) (i : Nat), (applySetOps c ops).sections i ≠ none →
      c.sections i ≠ none ∨ ∃ o ∈ ops, o.state ≠ 0 ∧ o.y >>> 4 = i := by
  induction ops with
  | nil => intro c i h; exact Or.inl h
  | cons o rest ih =>
    intro c i h
    rcases ih (c.setBlock o.x o.y o.z o.state) i h with h1 | ⟨o2, ho2, h2⟩
    · rcases setBlock_sections_covered c o.x o.y o.z o.state i h1 with h3 | h3
      · exact Or.inl h3
      · exact Or.inr ⟨o, List.mem_cons_self o rest, h3⟩
    · exact Or.inr ⟨o2, List.mem_cons_of_mem o ho2, h2⟩

/-- C10: `SetBlock` with state 0 into a chunk whose containing section is
nil is a no-op (the section pointer stays nil, nothing is allocated),
`GetBlock` on a nil section returns 0, and consequently — starting from a
fresh chunk — a section pointer is non-nil only if some `SetBlock` call
wrote a non-zero state into its y-range; an all-air section is therefore
represented as nil. -/
theorem c10_nil_section_semantics :
    (∀ (c : ChunkData) (x y z : Nat), c.sections (y >>> 4) = none →
      c.setBlock x y z 0 = c) ∧
    (∀ (c : ChunkData) (x y z : Nat), c.sections (y >>> 4) = none →
      c.getBlock x y z = 0) ∧
    (∀ (ops : List SetOp) (i : Nat), (applySetOps emptyChunk ops).sections i ≠ none →
      ∃ o ∈ ops, o.state ≠ 0 ∧ o.y >>> 4 = i) := by
  refine ⟨?_, ?_, ?_⟩
  · intro c x y z h
    simp [ChunkData.setBlock, h]
  · intro c x y z h
    simp [ChunkData.getBlock, h]
  · intro ops i h
    rcases applySetOps_sections_covered ops emptyChunk i h with h1 | h1
    · exact absurd rfl h1
    · exact h1

theorem c10_witness :
    ((emptyChunk.sections ((3 : Nat) >>> 4) = none ∧
        emptyChunk.setBlock 1 3 2 0 = emptyChunk) ∧
      (emptyChunk.sections ((200 : Nat) >>> 4) = none ∧
        emptyChunk.getBlock 4 200 5 = 0)) ∧
      ((applySetOps emptyChunk [⟨0, 20, 0, 32⟩]).sections 1 ≠ none ∧
        ∃ o ∈ ([⟨0, 20, 0, 32⟩] : List SetOp), o.state ≠ 0 ∧ o.y >>> 4 = 1) :=
  ⟨⟨⟨rfl, c10_nil_section_semantics.1 emptyChunk 1 3 2 rfl⟩,
      ⟨rfl, c10_nil_section_semantics.2.1 emptyChunk 4 200 5 rfl⟩⟩,
    ⟨fun hc => Option.noConfusion hc,
      c10_nil_section_semantics.2.2 [⟨0, 20, 0, 32⟩] 1 (fun hc => Option.noConfusion hc)⟩⟩


theorem setBlock_sections_other (c : ChunkData) (x y z s i : Nat) (hi : i ≠ y >>> 4) :
    (c.setBlock x y z s).sections i = c.sections i := by
  cases hsec : c.sections (y >>> 4) with
  | none =>
    by_cases hs : s = 0
    · simp [ChunkData.setBlock, hsec, hs]
    · simp [ChunkData.setBlock, hsec, hs, hi]
  | some sec => simp [ChunkData.setBlock, hsec, hi]

theorem setBlock_sections_self_ne_none (c : ChunkData) (x y z s : Nat) (hs : s ≠ 0) :
    (c.setBlock x y z s).sections (y >>> 4) ≠ none := by
  cases hsec : c.sections (y >>> 4) with
  | none => simp [ChunkData.setBlock, hsec, hs]
  | some sec => simp [ChunkData.setBlock, hsec]

theorem setBiome_sections (c : ChunkData) (x z b : Nat) :
    (c.setBiome x z b).sections = c.sections := rfl

theorem foldl_pres {α : Type} (P : ChunkData → Prop) (f : ChunkData → α → ChunkData)
    (hf : ∀ c a, P c → P (f c a)) :
    ∀ (l : List α) (c : ChunkData), P c → P (l.foldl f c) := by
  intro l
  induction l with
  | nil => intro c h; exact h
  | cons a t ih => intro c h; exact ih (f c a) (hf c a h)

theorem foldl_est {α : Type} (P : ChunkData → Prop) (f : ChunkData → α → ChunkData)
    (hf : ∀ c a, P (f c a)) :
    ∀ (l : List α) (c : ChunkData), l ≠ [] → P (l.foldl f c) := by
  intro l
  induction l with
  | nil => intro c h; exact absurd rfl h
  | cons a t ih =>
    intro c _
    cases t with
    | nil => exact hf c a
    | cons b t2 => exact ih (f c a) (by simp)

theorem flatGenerate_sections_none (i : Nat) (hi : i ≠ 0) : flatGenerate.sections i = none := by
  unfold flatGenerate
  refine foldl_pres (fun c => c.sections i = none) _ ?_ _ emptyChunk rfl
  intro c x h
  refine foldl_pres (fun c => c.sections i = none) _ ?_ _ c h
  intro c z h
  rw [setBiome_sections, setBlock_sections_other _ _ _ _ _ _ hi,
    setBlock_sections_other _ _ _ _ _ _ hi, setBlock_sections_other _ _ _ _ _ _ hi,
    setBlock_sections_other _ _ _ _ _ _ hi, setBlock_sections_other _ _ _ _ _ _ hi]
  exact h

theorem flatGenerate_sections_zero : flatGenerate.sections 0 ≠ none := by
  unfold flatGenerate
  refine foldl_est (fun c => c.sections 0 ≠ none) _ ?_ _ emptyChunk (by decide)
  intro c x
  refine foldl_est (fun c => c.sections 0 ≠ none) _ ?_ _ c (by decide)
  intro c z
  rw [setBiome_sections]
  exact setBlock_sections_self_ne_none _ x 4 z (blockGrass <<< 4) (by decide)

theorem chunkBitMap_section0 (c : ChunkData) (s : ChunkSection) (hs : c.sections 0 = some s)
    (hn : ∀ i, i ≠ 0 → c.sections i = none) : chunkBitMap c = 1 := by
  have e : List.range 16 = [0, 1, 2, 3, 4, 5, 6, 7, 8, 9, 10, 11, 12, 13, 14, 15] := rfl
  unfold chunkBitMap
  rw [e]
  simp only [List.foldl, hs, hn 1 (by decide), hn 2 (by decide), hn 3 (by decide),
    hn 4 (by decide), hn 5 (by decide), hn 6 (by decide), hn 7 (by decide),
    hn 8 (by decide), hn 9 (by decide), hn 10 (by decide), hn 11 (by decide),
    hn 12 (by decide), hn 13 (by decide), hn 14 (by decide), hn 15 (by decide)]
  simp

theorem chunkBitMap_flat : chunkBitMap flatGenerate = 1 := by
  rcases Option.ne_none_iff_exists'.mp flatGenerate_sections_zero with ⟨s, hs⟩
  exact chunkBitMap_section0 flatGenerate s hs (fun i hi => flatGenerate_sections_none i hi)

theorem flat_world_base_at_y100 :
    (mkWorld (fun _ _ => flatGenerate)).baseValue 0 100 0 = 0 := by
  unfold GoWorld.baseValue mkWorld
  simp [ChunkData.getBlock, flatGenerate_sections_none 6 (by decide)]

/-- C3 (the code, evaluated on the claim's failing input): the section
bitmap of `EncodeChunk` is computed from non-nil sections only — a section
reachable only via a stored override does not get its bit set, and its
override is never overlaid.  On a flat world (sections above 0 all nil)
with an override at (0, 100, 0) — which lies in section 100/16 = 6 — the
override is stored (base is air there), yet the encoded bitmap is 1:
bit 6 is clear, contradicting the claimed "bit i set iff section i is
non-null **or** some stored override has y in [16·i, 16·i+16)". -/
theorem c3_bitmap_ignores_override_sections :
    ovLookup ((mkWorld (fun _ _ => flatGenerate)).setBlock 0 100 0 64).blocks (0, 100, 0) =
        some 64 ∧
      (100 : Int) / 16 = 6 ∧
      (((mkWorld (fun _ _ => flatGenerate)).setBlock 0 100 0 64).encodeChunk 0 0).bitMap = 1 ∧
      Nat.testBit
          (((mkWorld (fun _ _ => flatGenerate)).setBlock 0 100 0 64).encodeChunk 0 0).bitMap
          6 = false := by
  have hset :
      ((mkWorld (fun _ _ => flatGenerate)).setBlock 0 100 0 64).blocks =
        [((0, 100, 0), 64)] := by
    unfold GoWorld.setBlock
    rw [flat_world_base_at_y100]
    simp [ovInsert, ovErase, mkWorld]
  have hproj : ∀ (w : GoWorld) (cx cz : Int),
      (w.encodeChunk cx cz).bitMap = chunkBitMap (w.generator cx cz) := fun _ _ _ => rfl
  have hbm :
      (((mkWorld (fun _ _ => flatGenerate)).setBlock 0 100 0 64).encodeChunk 0 0).bitMap =
        1 := by
    rw [hproj, setBlock_generator]
    exact chunkBitMap_flat
  refine ⟨?_, by decide, hbm, ?_⟩
  · rw [hset]
    rfl
  · rw [hbm]
    decide

/-- C1: for every 64-bit seed and chunk coordinates, two
`DefaultGenerator`s constructed independently from the same seed produce
identical `ChunkData` at that chunk — same section presence, block states,
and biome bytes — across all four passes (terrain, caves, ores,
decoration).  `Generate` is a pure function of the seed-derived generator
state and (cx, cz); the statement is quantified over every noise oracle,
i.e. every (deterministic) semantics of the IEEE-754 simplex-noise
evaluations. -/
theorem c1_generator_determinism (O : NoiseOracle) (seed cx cz : Int)
    (g1 g2 : DefaultGenerator) (h1 : g1 = newDefaultGenerator seed)
    (h2 : g2 = newDefaultGenerator seed) :
    dgGenerate O g1 cx cz = dgGenerate O g2 cx cz := by
  rw [h1, h2]

theorem c1_witness :
    dgGenerate
        ⟨fun _ _ _ => 0, fun _ _ _ => 0, fun _ _ _ => 0, fun _ _ _ => 0, fun _ _ _ => 0,
          fun _ _ _ _ => 0, fun _ _ _ _ => 0⟩
        (newDefaultGenerator 42) 3 (-7) =
      dgGenerate
        ⟨fun _ _ _ => 0, fun _ _ _ => 0, fun _ _ _ => 0, fun _ _ _ => 0, fun _ _ _ => 0,
          fun _ _ _ _ => 0, fun _ _ _ _ => 0⟩
        (newDefaultGenerator 42) 3 (-7) :=
  c1_generator_determinism
    ⟨fun _ _ _ => 0, fun _ _ _ => 0, fun _ _ _ => 0, fun _ _ _ => 0, fun _ _ _ => 0,
      fun _ _ _ _ => 0, fun _ _ _ _ => 0⟩
    42 3 (-7) (newDefaultGenerator 42) (newDefaultGenerator 42) rfl rfl

theorem c5_witness :
    ovLookup
        (((mkWorld (fun _ _ => emptyChunk)).setBlock 1 2 3 5).blocks) (1, 2, 3) =
        (if (5 : Int) = (mkWorld (fun _ _ => emptyChunk)).baseValue 1 2 3 then none
          else some 5) ∧
      (5 : Int) ≠
        (applyWorldOps (mkWorld (fun _ _ => emptyChunk)) [⟨1, 2, 3, 5⟩]).baseValue 1 2 3 :=
  ⟨c5_override_collapse.1 (mkWorld (fun _ _ => emptyChunk)) 1 2 3 5,
    c5_override_collapse.2 (fun _ _ => emptyChunk) [⟨1, 2, 3, 5⟩] (1, 2, 3) 5 (by decide)⟩

theorem c8_witness :
    (deltaFitsInByte (10 - 0) (20 - 0) (5 - 0) = true ∧
      playMovePackets MoveKind.positionAndLook 0 0 0 10 20 5 7 9 true =
        [MovePacket.entityMoveLook (10 - 0) (20 - 0) (5 - 0) 7 9 true,
          MovePacket.entityHeadRotation 7] ∧
      playMovePackets MoveKind.positionOnly 0 0 0 10 20 5 7 9 true =
        [MovePacket.relEntityMove (10 - 0) (20 - 0) (5 - 0) true]) ∧
      (deltaFitsInByte (1000 - 0) (0 - 0) (0 - 0) = false ∧
        playMovePackets MoveKind.positionAndLook 0 0 0 1000 0 0 7 9 true =
          [MovePacket.entityTeleport 1000 0 0 7 9 true,
            MovePacket.entityHeadRotation 7]) :=
  ⟨⟨by decide, (c8_position_update_packets 0 0 0 10 20 5 7 9 true).1 (by decide),
      (c8_position_update_packets 0 0 0 10 20 5 7 9 true).2.1 (by decide)⟩,
    ⟨by decide,
      ((c8_position_update_packets 0 0 0 1000 0 0 7 9 true).2.2.1 (by decide)).1⟩⟩

theorem track_eid (p : TPlayer) (e : Int) : (p.track e).eid = p.eid := by
  unfold TPlayer.track
  by_cases h : e ∈ p.tracked <;> simp [h]

theorem track_cx (p : TPlayer) (e : Int) : (p.track e).cx = p.cx := by
  unfold TPlayer.track
  by_cases h : e ∈ p.tracked <;> simp [h]

theorem track_cz (p : TPlayer) (e : Int) : (p.track e).cz = p.cz := by
  unfold TPlayer.track
  by_cases h : e ∈ p.tracked <;> simp [h]

theorem untrack_eid (p : TPlayer) (e : Int) : (p.untrack e).eid = p.eid := rfl

theorem untrack_cx (p : TPlayer) (e : Int) : (p.untrack e).cx = p.cx := rfl

theorem untrack_cz (p : TPlayer) (e : Int) : (p.untrack e).cz = p.cz := rfl

theorem mem_track (p : TPlayer) (e a : Int) :
    a ∈ (p.track e).tracked ↔ a = e ∨ a ∈ p.tracked := by
  unfold TPlayer.track
  by_cases h : e ∈ p.tracked
  · simp only [h, if_pos]
    constructor
    · exact Or.inr
    · rintro (rfl | h2)
      · exact h
      · exact h2
  · simp [h]

theorem mem_untrack (p : TPlayer) (e a : Int) :
    a ∈ (p.untrack e).tracked ↔ a ∈ p.tracked ∧ a ≠ e := by
  simp [TPlayer.untrack, List.mem_filter]

theorem isTracking_iff (p : TPlayer) (e : Int) : p.isTracking e = true ↔ e ∈ p.tracked := by
  simp [TPlayer.isTracking]

theorem inViewDistance_true_iff (cx1 cz1 cx2 cz2 vd : Int) :
    inViewDistance cx1 cz1 cx2 cz2 vd = true ↔
      (if cx1 - cx2 < 0 then -(cx1 - cx2) else cx1 - cx2) ≤ vd ∧
        (if cz1 - cz2 < 0 then -(cz1 - cz2) else cz1 - cz2) ≤ vd := by
  unfold inViewDistance
  simp [Bool.and_eq_true]

theorem inViewDistance_symm (cx1 cz1 cx2 cz2 vd : Int) :
    inViewDistance cx1 cz1 cx2 cz2 vd = inViewDistance cx2 cz2 cx1 cz1 vd := by
  rw [Bool.eq_iff_iff, inViewDistance_true_iff, inViewDistance_true_iff]
  split_ifs <;> omega

theorem updTrackOther_eid (vd : Int) (mv o : TPlayer) : (updTrackOther vd mv o).eid = o.eid := by
  simp only [updTrackOther]
  split_ifs <;> simp [track_eid, untrack_eid]

theorem updTrackMoved_eid (vd : Int) (mv o : TPlayer) :
    (updTrackMoved vd mv o).eid = mv.eid := by
  simp only [updTrackMoved]
  split_ifs <;> simp [track_eid, untrack_eid]


theorem updTrackOther_cx (vd : Int) (mv o : TPlayer) : (updTrackOther vd mv o).cx = o.cx := by
  simp only [updTrackOther]
  split_ifs <;> simp [track_cx, untrack_cx]

theorem updTrackOther_cz (vd : Int) (mv o : TPlayer) : (updTrackOther vd mv o).cz = o.cz := by
  simp only [updTrackOther]
  split_ifs <;> simp [track_cz, untrack_cz]

theorem updTrackMoved_cx (vd : Int) (mv o : TPlayer) : (updTrackMoved vd mv o).cx = mv.cx := by
  simp only [updTrackMoved]
  split_ifs <;> simp [track_cx, untrack_cx]

theorem updTrackMoved_cz (vd : Int) (mv o : TPlayer) : (updTrackMoved vd mv o).cz = mv.cz := by
  simp only [updTrackMoved]
  split_ifs <;> simp [track_cz, untrack_cz]

theorem updTrackOther_mem_moved (vd : Int) (mv o : TPlayer) :
    mv.eid ∈ (updTrackOther vd mv o).tracked ↔
      inViewDistance mv.cx mv.cz o.cx o.cz vd = true := by
  simp only [updTrackOther]
  cases hIR : inViewDistance mv.cx mv.cz o.cx o.cz vd <;>
    by_cases ht : mv.eid ∈ o.tracked <;>
    simp [TPlayer.isTracking, hIR, ht, mem_track, mem_untrack]

theorem updTrackOther_mem_other (vd : Int) (mv o : TPlayer) (b : Int) (hb : b ≠ mv.eid) :
    b ∈ (updTrackOther vd mv o).tracked ↔ b ∈ o.tracked := by
  simp only [updTrackOther]
  cases hIR : inViewDistance mv.cx mv.cz o.cx o.cz vd <;>
    by_cases ht : mv.eid ∈ o.tracked <;>
    simp [TPlayer.isTracking, hIR, ht, mem_track, mem_untrack, hb]

theorem updTrackMoved_mem_other (vd : Int) (mv o : TPlayer) (b : Int) (hb : b ≠ o.eid) :
    b ∈ (updTrackMoved vd mv o).tracked ↔ b ∈ mv.tracked := by
  simp only [updTrackMoved]
  cases hIR : inViewDistance mv.cx mv.cz o.cx o.cz vd <;>
    by_cases ht : mv.eid ∈ o.tracked <;>
    by_cases hm : o.eid ∈ mv.tracked <;>
    simp [TPlayer.isTracking, hIR, ht, hm, mem_track, mem_untrack, hb]

theorem updTrackMoved_mem_self (vd : Int) (mv o : TPlayer)
    (hsym : o.eid ∈ mv.tracked ↔ mv.eid ∈ o.tracked) :
    o.eid ∈ (updTrackMoved vd mv o).tracked ↔
      inViewDistance mv.cx mv.cz o.cx o.cz vd = true := by
  simp only [updTrackMoved]
  cases hIR : inViewDistance mv.cx mv.cz o.cx o.cz vd <;>
    by_cases ht : mv.eid ∈ o.tracked
  · have hm : o.eid ∈ mv.tracked := hsym.mpr ht
    simp [TPlayer.isTracking, hIR, ht, hm, mem_untrack]
  · have hm : o.eid ∉ mv.tracked := fun hc => ht (hsym.mp hc)
    simp [TPlayer.isTracking, hIR, ht, hm]
  · have hm : o.eid ∈ mv.tracked := hsym.mpr ht
    simp [TPlayer.isTracking, hIR, ht, hm]
  · have hm : o.eid ∉ mv.tracked := fun hc => ht (hsym.mp hc)
    simp [TPlayer.isTracking, hIR, ht, hm, mem_track]

theorem foldl_updM_eid (vd : Int) (l : List TPlayer) :
    ∀ mv : TPlayer, (l.foldl (updTrackMoved vd) mv).eid = mv.eid := by
  induction l with
  | nil => intro mv; rfl
  | cons o t ih => intro mv; rw [List.foldl_cons, ih, updTrackMoved_eid]

theorem foldl_updM_cx (vd : Int) (l : List TPlayer) :
    ∀ mv : TPlayer, (l.foldl (updTrackMoved vd) mv).cx = mv.cx := by
  induction l with
  | nil => intro mv; rfl
  | cons o t ih => intro mv; rw [List.foldl_cons, ih, updTrackMoved_cx]

theorem foldl_updM_cz (vd : Int) (l : List TPlayer) :
    ∀ mv : TPlayer, (l.foldl (updTrackMoved vd) mv).cz = mv.cz := by
  induction l with
  | nil => intro mv; rfl
  | cons o t ih => intro mv; rw [List.foldl_cons, ih, updTrackMoved_cz]

theorem foldl_updM_mem_notin (vd : Int) (l : List TPlayer) :
    ∀ (mv : TPlayer) (b : Int), (∀ o ∈ l, b ≠ o.eid) →
      (b ∈ (l.foldl (updTrackMoved vd) mv).tracked ↔ b ∈ mv.tracked) := by
  induction l with
  | nil => intro mv b _; exact Iff.rfl
  | cons o t ih =>
    intro mv b hb
    rw [List.foldl_cons, ih (updTrackMoved vd mv o) b (fun o2 ho2 => hb o2 (List.mem_cons_of_mem o ho2)),
      updTrackMoved_mem_other vd mv o b (hb o (List.mem_cons_self o t))]

theorem foldl_updM_mem (vd : Int) (l : List TPlayer) :
    ∀ (mv : TPlayer) (b : TPlayer), b ∈ l → (l.map TPlayer.eid).Nodup →
      (b.eid ∈ mv.tracked ↔ mv.eid ∈ b.tracked) →
      (b.eid ∈ (l.foldl (updTrackMoved vd) mv).tracked ↔
        inViewDistance mv.cx mv.cz b.cx b.cz vd = true) := by
  induction l with
  | nil => intro mv b hb; exact absurd hb (List.not_mem_nil b)
  | cons o t ih =>
    intro mv b hb hnd hsym
    have hnd2 : o.eid ∉ t.map TPlayer.eid ∧ (t.map TPlayer.eid).Nodup := by
      rw [List.map_cons, List.nodup_cons] at hnd
      exact hnd
    rw [List.foldl_cons]
    rcases List.mem_cons.mp hb with rfl | hbt
    · have hno : ∀ o2 ∈ t, b.eid ≠ o2.eid := by
        intro o2 ho2 he
        exact hnd2.1 (he ▸ List.mem_map_of_mem TPlayer.eid ho2)
      rw [foldl_updM_mem_notin vd t (updTrackMoved vd mv b) b.eid hno,
        updTrackMoved_mem_self vd mv b hsym]
    · have hbo : b.eid ≠ o.eid := by
        intro he
        exact hnd2.1 (he ▸ List.mem_map_of_mem TPlayer.eid hbt)
      have hsym2 : b.eid ∈ (updTrackMoved vd mv o).tracked ↔
          (updTrackMoved vd mv o).eid ∈ b.tracked := by
        rw [updTrackMoved_eid, updTrackMoved_mem_other vd mv o b.eid hbo]
        exact hsym
      have := ih (updTrackMoved vd mv o) b hbt hnd2.2 hsym2
      rwa [updTrackMoved_cx, updTrackMoved_cz] at this

theorem addFold_eid (px pz vd : Int) (l : List TPlayer) :
    ∀ q : TPlayer,
      (l.foldl
          (fun q o => if inViewDistance px pz o.cx o.cz vd then q.track o.eid else q)
          q).eid = q.eid := by
  induction l with
  | nil => intro q; rfl
  | cons o t ih =>
    intro q
    rw [List.foldl_cons, ih]
    by_cases h : inViewDistance px pz o.cx o.cz vd = true <;> simp [h, track_eid]

theorem addFold_cx (px pz vd : Int) (l : List TPlayer) :
    ∀ q : TPlayer,
      (l.foldl
          (fun q o => if inViewDistance px pz o.cx o.cz vd then q.track o.eid else q)
          q).cx = q.cx := by
  induction l with
  | nil => intro q; rfl
  | cons o t ih =>
    intro q
    rw [List.foldl_cons, ih]
    by_cases h : inViewDistance px pz o.cx o.cz vd = true <;> simp [h, track_cx]

theorem addFold_cz (px pz vd : Int) (l : List TPlayer) :
    ∀ q : TPlayer,
      (l.foldl
          (fun q o => if inViewDistance px pz o.cx o.cz vd then q.track o.eid else q)
          q).cz = q.cz := by
  induction l with
  | nil => intro q; rfl
  | cons o t ih =>
    intro q
    rw [List.foldl_cons, ih]
    by_cases h : inViewDistance px pz o.cx o.cz vd = true <;> simp [h, track_cz]

theorem addFold_mem (px pz vd : Int) (l : List TPlayer) :
    ∀ (q : TPlayer) (b : Int),
      (b ∈ (l.foldl
            (fun q o => if inViewDistance px pz o.cx o.cz vd then q.track o.eid else q)
            q).tracked ↔
        b ∈ q.tracked ∨ ∃ o ∈ l, o.eid = b ∧ inViewDistance px pz o.cx o.cz vd = true) := by
  induction l with
  | nil => intro q b; simp
  | cons o t ih =>
    intro q b
    rw [List.foldl_cons, ih]
    by_cases h : inViewDistance px pz o.cx o.cz vd = true
    · simp only [h, if_pos, mem_track]
      constructor
      · rintro ((rfl | hq) | ⟨o2, ho2, he, hv⟩)
        · exact Or.inr ⟨o, List.mem_cons_self o t, rfl, h⟩
        · exact Or.inl hq
        · exact Or.inr ⟨o2, List.mem_cons_of_mem o ho2, he, hv⟩
      · rintro (hq | ⟨o2, ho2, he, hv⟩)
        · exact Or.inl (Or.inr hq)
        · rcases List.mem_cons.mp ho2 with rfl | ho2t
          · exact Or.inl (Or.inl he.symm)
          · exact Or.inr ⟨o2, ho2t, he, hv⟩
    · simp only [h, if_neg, Bool.false_eq_true, if_false]
      constructor
      · rintro (hq | ⟨o2, ho2, he, hv⟩)
        · exact Or.inl hq
        · exact Or.inr ⟨o2, List.mem_cons_of_mem o ho2, he, hv⟩
      · rintro (hq | ⟨o2, ho2, he, hv⟩)
        · exact Or.inl hq
        · rcases List.mem_cons.mp ho2 with rfl | ho2t
          · exact absurd hv h
          · exact Or.inr ⟨o2, ho2t, he, hv⟩

theorem mAdd_preserves (m : TManager) (p0 : TPlayer) (hnd : eidsNodup m)
    (hreg : trackedRegistered m) (hinv : trackingInvariant m)
    (hfresh : p0.eid ∉ m.players.map TPlayer.eid) (hemp : p0.tracked = []) :
    eidsNodup (mAdd m p0) ∧ trackedRegistered (mAdd m p0) ∧ trackingInvariant (mAdd m p0) := by
  have hnd' : (m.players.map TPlayer.eid).Nodup := hnd
  obtain ⟨others, newP, hO, hN, hP⟩ :
      ∃ others newP,
        others =
            m.players.map
              (fun other =>
                if inViewDistance p0.cx p0.cz other.cx other.cz m.viewDistance then
                  other.track p0.eid
                else other) ∧
          newP =
            m.players.foldl
              (fun q other =>
                if inViewDistance p0.cx p0.cz other.cx other.cz m.viewDistance then
                  q.track other.eid
                else q)
              p0 ∧
          (mAdd m p0).players = others ++ [newP] :=
    ⟨_, _, rfl, rfl, rfl⟩
  have hvd : (mAdd m p0).viewDistance = m.viewDistance := rfl
  have hFeid : ∀ a : TPlayer,
      (if inViewDistance p0.cx p0.cz a.cx a.cz m.viewDistance then a.track p0.eid
        else a).eid = a.eid := by
    intro a
    by_cases h : inViewDistance p0.cx p0.cz a.cx a.cz m.viewDistance = true <;>
      simp [h, track_eid]
  have hFcx : ∀ a : TPlayer,
      (if inViewDistance p0.cx p0.cz a.cx a.cz m.viewDistance then a.track p0.eid
        else a).cx = a.cx := by
    intro a
    by_cases h : inViewDistance p0.cx p0.cz a.cx a.cz m.viewDistance = true <;>
      simp [h, track_cx]
  have hFcz : ∀ a : TPlayer,
      (if inViewDistance p0.cx p0.cz a.cx a.cz m.viewDistance then a.track p0.eid
        else a).cz = a.cz := by
    intro a
    by_cases h : inViewDistance p0.cx p0.cz a.cx a.cz m.viewDistance = true <;>
      simp [h, track_cz]
  have hFmem : ∀ (a : TPlayer) (b : Int),
      (b ∈ (if inViewDistance p0.cx p0.cz a.cx a.cz m.viewDistance then a.track p0.eid
          else a).tracked ↔
        (b = p0.eid ∧ inViewDistance p0.cx p0.cz a.cx a.cz m.viewDistance = true) ∨
          b ∈ a.tracked) := by
    intro a b
    by_cases h : inViewDistance p0.cx p0.cz a.cx a.cz m.viewDistance = true <;>
      simp [h, mem_track]
  have hNeid : newP.eid = p0.eid := by rw [hN]; exact addFold_eid _ _ _ _ _
  have hNcx : newP.cx = p0.cx := by rw [hN]; exact addFold_cx _ _ _ _ _
  have hNcz : newP.cz = p0.cz := by rw [hN]; exact addFold_cz _ _ _ _ _
  have hNmem : ∀ b : Int,
      (b ∈ newP.tracked ↔
        ∃ o ∈ m.players, o.eid = b ∧
          inViewDistance p0.cx p0.cz o.cx o.cz m.viewDistance = true) := by
    intro b
    rw [hN, addFold_mem, hemp]
    simp
  have heids : (mAdd m p0).players.map TPlayer.eid =
      m.players.map TPlayer.eid ++ [p0.eid] := by
    rw [hP, List.map_append, hO, List.map_map]
    congr 1
    · exact List.map_congr_left (fun a _ => hFeid a)
    · simp [hNeid]
  have hmemP : ∀ a', a' ∈ (mAdd m p0).players ↔
      ((∃ a ∈ m.players,
          a' =
            if inViewDistance p0.cx p0.cz a.cx a.cz m.viewDistance then a.track p0.eid
            else a) ∨
        a' = newP) := by
    intro a'
    rw [hP, List.mem_append, hO, List.mem_map]
    simp only [List.mem_singleton]
    constructor
    · rintro (⟨a, ha, rfl⟩ | h)
      · exact Or.inl ⟨a, ha, rfl⟩
      · exact Or.inr h
    · rintro (⟨a, ha, rfl⟩ | h)
      · exact Or.inl ⟨a, ha, rfl⟩
      · exact Or.inr h
  have hregmem : ∀ a ∈ m.players, a.eid ∈ m.players.map TPlayer.eid :=
    fun a ha => List.mem_map_of_mem TPlayer.eid ha
  refine ⟨?_, ?_, ?_⟩
  · show ((mAdd m p0).players.map TPlayer.eid).Nodup
    rw [heids]
    simp [List.nodup_append, hnd', hfresh]
  · intro a' ha' e he
    have hemem : ∀ x : Int, x ∈ (mAdd m p0).players.map TPlayer.eid ↔
        x ∈ m.players.map TPlayer.eid ∨ x = p0.eid := by
      intro x
      rw [heids]
      simp
    rcases (hmemP a').mp ha' with ⟨a, ha, rfl⟩ | rfl
    · rcases (hFmem a e).mp he with ⟨rfl, hv⟩ | hin
      · refine ⟨?_, (hemem p0.eid).mpr (Or.inr rfl)⟩
        rw [hFeid a]
        intro hc
        exact hfresh (hc ▸ hregmem a ha)
      · rcases hreg a ha e hin with ⟨hne, hold⟩
        refine ⟨?_, (hemem e).mpr (Or.inl hold)⟩
        rw [hFeid a]
        exact hne
    · rcases (hNmem e).mp he with ⟨o, ho, rfl, hv⟩
      refine ⟨?_, (hemem o.eid).mpr (Or.inl (hregmem o ho))⟩
      rw [hNeid]
      intro hc
      exact hfresh (hc ▸ hregmem o ho)
  · intro a' ha' b' hb' hne
    rw [hvd]
    rcases (hmemP a').mp ha' with ⟨a, ha, rfl⟩ | rfl <;>
      rcases (hmemP b').mp hb' with ⟨b, hb, rfl⟩ | rfl
    · -- both old players
      have hbe : b.eid ≠ p0.eid := fun hc => hfresh (hc ▸ hregmem b hb)
      have hane : a.eid ≠ b.eid := by
        rw [hFeid a, hFeid b] at hne
        exact hne
      rw [hFeid b, hFcx a, hFcz a, hFcx b, hFcz b, hFmem a b.eid]
      constructor
      · rintro (⟨hc, _⟩ | hin)
        · exact absurd hc hbe
        · exact (hinv a ha b hb hane).mp hin
      · intro hv
        exact Or.inr ((hinv a ha b hb hane).mpr hv)
    · -- a old, b new
      have haid : a.eid ≠ p0.eid := fun hc => hfresh (hc ▸ hregmem a ha)
      rw [hNeid, hNcx, hNcz, hFcx a, hFcz a, hFmem a p0.eid]
      constructor
      · rintro (⟨_, hv⟩ | hin)
        · rw [inViewDistance_symm]
          exact hv
        · exfalso
          exact hfresh ((hreg a ha p0.eid hin).2)
      · intro hv
        left
        rw [inViewDistance_symm] at hv
        exact ⟨rfl, hv⟩
    · -- a new, b old
      rw [hNcx, hNcz, hFeid b, hFcx b, hFcz b, hNmem b.eid]
      constructor
      · rintro ⟨o, ho, heq, hv⟩
        have : o = b := List.inj_on_of_nodup_map hnd' ho hb heq
        subst this
        exact hv
      · intro hv
        exact ⟨b, hb, rfl, hv⟩
    · -- both new: same eid
      exact absurd rfl hne

theorem mRemove_preserves (m : TManager) (eid : Int) (hnd : eidsNodup m)
    (hreg : trackedRegistered m) (hinv : trackingInvariant m) :
    eidsNodup (mRemove m eid) ∧ trackedRegistered (mRemove m eid) ∧
      trackingInvariant (mRemove m eid) := by
  have hnd' : (m.players.map TPlayer.eid).Nodup := hnd
  have hvd : (mRemove m eid).viewDistance = m.viewDistance := rfl
  have hGeid : ∀ o : TPlayer,
      (if o.isTracking eid then o.untrack eid else o).eid = o.eid := by
    intro o
    by_cases h : o.isTracking eid = true <;> simp [h, untrack_eid]
  have hGcx : ∀ o : TPlayer,
      (if o.isTracking eid then o.untrack eid else o).cx = o.cx := by
    intro o
    by_cases h : o.isTracking eid = true <;> simp [h, untrack_cx]
  have hGcz : ∀ o : TPlayer,
      (if o.isTracking eid then o.untrack eid else o).cz = o.cz := by
    intro o
    by_cases h : o.isTracking eid = true <;> simp [h, untrack_cz]
  have hGmem : ∀ (o : TPlayer) (b : Int),
      (b ∈ (if o.isTracking eid then o.untrack eid else o).tracked ↔
        b ∈ o.tracked ∧ b ≠ eid) := by
    intro o b
    by_cases h : o.isTracking eid = true
    · simp [h, mem_untrack]
    · have hno : eid ∉ o.tracked := by
        rw [← isTracking_iff]
        simpa using h
      simp only [h, Bool.false_eq_true, if_false]
      constructor
      · intro hb
        exact ⟨hb, fun hc => hno (hc ▸ hb)⟩
      · exact And.left
  have hfil : ∀ a : TPlayer,
      (a ∈ m.players.filter (fun q => decide (q.eid ≠ eid)) ↔
        a ∈ m.players ∧ a.eid ≠ eid) := by
    intro a
    rw [List.mem_filter]
    simp
  have hplayers : (mRemove m eid).players =
      (m.players.filter (fun q => decide (q.eid ≠ eid))).map
        (fun other => if other.isTracking eid then other.untrack eid else other) := rfl
  have heids : (mRemove m eid).players.map TPlayer.eid =
      (m.players.filter (fun q => decide (q.eid ≠ eid))).map TPlayer.eid := by
    rw [hplayers, List.map_map]
    exact List.map_congr_left (fun a _ => hGeid a)
  have hsub : ((mRemove m eid).players.map TPlayer.eid).Sublist
      (m.players.map TPlayer.eid) := by
    rw [heids]
    exact List.Sublist.map TPlayer.eid (List.filter_sublist m.players)
  have hmemP : ∀ a', a' ∈ (mRemove m eid).players ↔
      ∃ a, (a ∈ m.players ∧ a.eid ≠ eid) ∧
        a' = if a.isTracking eid then a.untrack eid else a := by
    intro a'
    rw [hplayers, List.mem_map]
    constructor
    · rintro ⟨a, ha, rfl⟩
      exact ⟨a, (hfil a).mp ha, rfl⟩
    · rintro ⟨a, ha, rfl⟩
      exact ⟨a, (hfil a).mpr ha, rfl⟩
  refine ⟨hnd'.sublist hsub, ?_, ?_⟩
  · intro a' ha' e he
    rcases (hmemP a').mp ha' with ⟨a, ⟨ha, hae⟩, rfl⟩
    rcases (hGmem a e).mp he with ⟨hin, hene⟩
    rcases hreg a ha e hin with ⟨hnea, hold⟩
    refine ⟨by rw [hGeid a]; exact hnea, ?_⟩
    rw [heids]
    rcases List.mem_map.mp hold with ⟨o, ho, rfl⟩
    exact List.mem_map_of_mem TPlayer.eid ((hfil o).mpr ⟨ho, hene⟩)
  · intro a' ha' b' hb' hne
    rw [hvd]
    rcases (hmemP a').mp ha' with ⟨a, ⟨ha, hae⟩, rfl⟩
    rcases (hmemP b').mp hb' with ⟨b, ⟨hb, hbe⟩, rfl⟩
    have hane : a.eid ≠ b.eid := by
      rw [hGeid a, hGeid b] at hne
      exact hne
    rw [hGeid b, hGcx a, hGcz a, hGcx b, hGcz b, hGmem a b.eid]
    constructor
    · rintro ⟨hin, _⟩
      exact (hinv a ha b hb hane).mp hin
    · intro hv
      exact ⟨(hinv a ha b hb hane).mpr hv, hbe⟩

theorem mUpdateTracking_preserves (m : TManager) (eid : Int)
    (hnd : eidsNodup m) (hreg : trackedRegistered m)
    (hoff : ∀ a ∈ m.players, ∀ b ∈ m.players, a.eid ≠ eid → b.eid ≠ eid → a.eid ≠ b.eid →
      (b.eid ∈ a.tracked ↔ inViewDistance a.cx a.cz b.cx b.cz m.viewDistance = true))
    (hsymm : ∀ a ∈ m.players, a.eid = eid → ∀ b ∈ m.players, b.eid ≠ eid →
      (b.eid ∈ a.tracked ↔ eid ∈ b.tracked)) :
    eidsNodup (mUpdateTracking m eid) ∧ trackedRegistered (mUpdateTracking m eid) ∧
      trackingInvariant (mUpdateTracking m eid) := by
  have hnd' : (m.players.map TPlayer.eid).Nodup := hnd
  cases hfind : m.players.find? (fun p => decide (p.eid = eid)) with
  | none =>
    have heq : mUpdateTracking m eid = m := by
      unfold mUpdateTracking
      rw [hfind]
    rw [heq]
    refine ⟨hnd, hreg, ?_⟩
    intro a ha b hb hne
    have hae : a.eid ≠ eid := by simpa using List.find?_eq_none.mp hfind a ha
    have hbe : b.eid ≠ eid := by simpa using List.find?_eq_none.mp hfind b hb
    exact hoff a ha b hb hae hbe hne
  | some moved0 =>
    have hm0 : moved0 ∈ m.players := List.mem_of_find?_eq_some hfind
    have hm0e : moved0.eid = eid := by simpa using List.find?_some hfind
    have hvd : (mUpdateTracking m eid).viewDistance = m.viewDistance := by
      unfold mUpdateTracking
      rw [hfind]
    have hplayers : (mUpdateTracking m eid).players =
        m.players.map
          (fun p =>
            if p.eid = eid then
              (m.players.filter (fun p => decide (p.eid ≠ eid))).foldl
                (updTrackMoved m.viewDistance) moved0
            else updTrackOther m.viewDistance moved0 p) := by
      unfold mUpdateTracking
      rw [hfind]
    have huniq : ∀ a ∈ m.players, a.eid = eid → a = moved0 := by
      intro a ha hae
      exact List.inj_on_of_nodup_map hnd' ha hm0 (by rw [hae, hm0e])
    have hfil : ∀ a : TPlayer,
        (a ∈ m.players.filter (fun p => decide (p.eid ≠ eid)) ↔
          a ∈ m.players ∧ a.eid ≠ eid) := by
      intro a
      rw [List.mem_filter]
      simp
    have hfilnd :
        ((m.players.filter (fun p => decide (p.eid ≠ eid))).map TPlayer.eid).Nodup :=
      hnd'.sublist (List.Sublist.map TPlayer.eid (List.filter_sublist m.players))
    have hMeid :
        ((m.players.filter (fun p => decide (p.eid ≠ eid))).foldl
          (updTrackMoved m.viewDistance) moved0).eid = eid := by
      rw [foldl_updM_eid, hm0e]
    have hMcx :
        ((m.players.filter (fun p => decide (p.eid ≠ eid))).foldl
          (updTrackMoved m.viewDistance) moved0).cx = moved0.cx :=
      foldl_updM_cx _ _ _
    have hMcz :
        ((m.players.filter (fun p => decide (p.eid ≠ eid))).foldl
          (updTrackMoved m.viewDistance) moved0).cz = moved0.cz :=
      foldl_updM_cz _ _ _
    have hMmem : ∀ b ∈ m.players, b.eid ≠ eid →
        (b.eid ∈
            ((m.players.filter (fun p => decide (p.eid ≠ eid))).foldl
              (updTrackMoved m.viewDistance) moved0).tracked ↔
          inViewDistance moved0.cx moved0.cz b.cx b.cz m.viewDistance = true) := by
      intro b hb hbe
      refine foldl_updM_mem m.viewDistance _ moved0 b ((hfil b).mpr ⟨hb, hbe⟩) hfilnd ?_
      rw [hm0e]
      exact hsymm moved0 hm0 hm0e b hb hbe
    have hMnotin : ∀ e : Int,
        (∀ o ∈ m.players.filter (fun p => decide (p.eid ≠ eid)), e ≠ o.eid) →
        (e ∈
            ((m.players.filter (fun p => decide (p.eid ≠ eid))).foldl
              (updTrackMoved m.viewDistance) moved0).tracked ↔
          e ∈ moved0.tracked) := by
      intro e he
      exact foldl_updM_mem_notin m.viewDistance _ moved0 e he
    have hKeid : ∀ p : TPlayer,
        ((if p.eid = eid then
            (m.players.filter (fun p => decide (p.eid ≠ eid))).foldl
              (updTrackMoved m.viewDistance) moved0
          else updTrackOther m.viewDistance moved0 p) : TPlayer).eid = p.eid := by
      intro p
      by_cases hp : p.eid = eid
      · rw [if_pos hp, hMeid, hp]
      · rw [if_neg hp, updTrackOther_eid]
    have heids : (mUpdateTracking m eid).players.map TPlayer.eid =
        m.players.map TPlayer.eid := by
      rw [hplayers, List.map_map]
      exact List.map_congr_left (fun p _ => hKeid p)
    have hmemP : ∀ a', a' ∈ (mUpdateTracking m eid).players ↔
        ∃ a ∈ m.players,
          a' =
            if a.eid = eid then
              (m.players.filter (fun p => decide (p.eid ≠ eid))).foldl
                (updTrackMoved m.viewDistance) moved0
            else updTrackOther m.viewDistance moved0 a := by
      intro a'
      rw [hplayers, List.mem_map]
      constructor
      · rintro ⟨a, ha, rfl⟩
        exact ⟨a, ha, rfl⟩
      · rintro ⟨a, ha, rfl⟩
        exact ⟨a, ha, rfl⟩
    refine ⟨?_, ?_, ?_⟩
    · show ((mUpdateTracking m eid).players.map TPlayer.eid).Nodup
      rw [heids]
      exact hnd'
    · intro a' ha' e he
      have hmape : ∀ x ∈ m.players, x.eid ∈ (mUpdateTracking m eid).players.map TPlayer.eid := by
        intro x hx
        rw [heids]
        exact List.mem_map_of_mem TPlayer.eid hx
      rcases (hmemP a').mp ha' with ⟨a, ha, rfl⟩
      by_cases hp : a.eid = eid
      · rw [if_pos hp] at he ⊢
        have ha0 : a = moved0 := huniq a ha hp
        by_cases hex : ∃ o ∈ m.players.filter (fun p => decide (p.eid ≠ eid)), e = o.eid
        · rcases hex with ⟨o, ho, rfl⟩
          rcases (hfil o).mp ho with ⟨hom, hoe⟩
          refine ⟨?_, hmape o hom⟩
          rw [hMeid]
          exact hoe
        · have hne : ∀ o ∈ m.players.filter (fun p => decide (p.eid ≠ eid)), e ≠ o.eid := by
            intro o ho hc
            exact hex ⟨o, ho, hc⟩
          rw [hMnotin e hne] at he
          rcases hreg moved0 hm0 e he with ⟨hne0, hold⟩
          refine ⟨?_, by rw [heids]; exact hold⟩
          rw [hMeid, ← hm0e]
          exact hne0
      · rw [if_neg hp] at he ⊢
        by_cases hee : e = moved0.eid
        · subst hee
          refine ⟨?_, hmape moved0 hm0⟩
          rw [updTrackOther_eid, hm0e]
          exact fun hc => hp hc.symm
        · rw [updTrackOther_mem_other m.viewDistance moved0 a e hee] at he
          rcases hreg a ha e he with ⟨hnea, hold⟩
          refine ⟨?_, by rw [heids]; exact hold⟩
          rw [updTrackOther_eid]
          exact hnea
    · intro a' ha' b' hb' hne
      rw [hvd]
      rcases (hmemP a').mp ha' with ⟨a, ha, rfl⟩
      rcases (hmemP b').mp hb' with ⟨b, hb, rfl⟩
      have hab : a.eid ≠ b.eid := by
        rw [hKeid a, hKeid b] at hne
        exact hne
      by_cases hpa : a.eid = eid <;> by_cases hpb : b.eid = eid
      · exact absurd (hpa.trans hpb.symm) hab
      · -- a is the moved player
        rw [if_pos hpa, if_neg hpb, updTrackOther_eid, updTrackOther_cx, updTrackOther_cz,
          hMcx, hMcz, hMmem b hb hpb]
      · -- b is the moved player
        rw [if_neg hpa, if_pos hpb, hMeid, hMcx, hMcz, updTrackOther_cx, updTrackOther_cz]
        have h2 := updTrackOther_mem_moved m.viewDistance moved0 a
        rw [hm0e] at h2
        rw [h2, inViewDistance_symm]
      · -- neither is moved
        rw [if_neg hpa, if_neg hpb, updTrackOther_eid, updTrackOther_cx, updTrackOther_cz,
          updTrackOther_cx, updTrackOther_cz,
          updTrackOther_mem_other m.viewDistance moved0 a b.eid
            (by rw [hm0e]; exact hpb)]
        exact hoff a ha b hb hpa hpb hab

theorem mMove_preserves (m : TManager) (eid cx cz : Int) (hnd : eidsNodup m)
    (hreg : trackedRegistered m) (hinv : trackingInvariant m) :
    eidsNodup (mMove m eid cx cz) ∧ trackedRegistered (mMove m eid cx cz) ∧
      trackingInvariant (mMove m eid cx cz) := by
  have hnd' : (m.players.map TPlayer.eid).Nodup := hnd
  have hHeid : ∀ p : TPlayer,
      ((if p.eid = eid then { p with cx := cx, cz := cz } else p) : TPlayer).eid = p.eid := by
    intro p
    by_cases hp : p.eid = eid <;> simp [hp]
  have hHtr : ∀ p : TPlayer,
      ((if p.eid = eid then { p with cx := cx, cz := cz } else p) : TPlayer).tracked =
        p.tracked := by
    intro p
    by_cases hp : p.eid = eid <;> simp [hp]
  have hplayers : (mSetPos m eid cx cz).players =
      m.players.map (fun p => if p.eid = eid then { p with cx := cx, cz := cz } else p) := rfl
  have hvd : (mSetPos m eid cx cz).viewDistance = m.viewDistance := rfl
  have hseids : (mSetPos m eid cx cz).players.map TPlayer.eid =
      m.players.map TPlayer.eid := by
    rw [hplayers, List.map_map]
    exact List.map_congr_left (fun p _ => hHeid p)
  have hsmem : ∀ a', a' ∈ (mSetPos m eid cx cz).players ↔
      ∃ a ∈ m.players,
        a' = if a.eid = eid then { a with cx := cx, cz := cz } else a := by
    intro a'
    rw [hplayers, List.mem_map]
    constructor
    · rintro ⟨a, ha, rfl⟩
      exact ⟨a, ha, rfl⟩
    · rintro ⟨a, ha, rfl⟩
      exact ⟨a, ha, rfl⟩
  have hsnd : eidsNodup (mSetPos m eid cx cz) := by
    show ((mSetPos m eid cx cz).players.map TPlayer.eid).Nodup
    rw [hseids]
    exact hnd'
  have hsreg : trackedRegistered (mSetPos m eid cx cz) := by
    intro a' ha' e he
    rcases (hsmem a').mp ha' with ⟨a, ha, rfl⟩
    rw [hHtr a] at he
    rcases hreg a ha e he with ⟨hne, hold⟩
    refine ⟨by rw [hHeid a]; exact hne, ?_⟩
    rw [hseids]
    exact hold
  have hsoff : ∀ a' ∈ (mSetPos m eid cx cz).players, ∀ b' ∈ (mSetPos m eid cx cz).players,
      a'.eid ≠ eid → b'.eid ≠ eid → a'.eid ≠ b'.eid →
      (b'.eid ∈ a'.tracked ↔
        inViewDistance a'.cx a'.cz b'.cx b'.cz (mSetPos m eid cx cz).viewDistance = true) := by
    intro a' ha' b' hb' hae hbe hne
    rcases (hsmem a').mp ha' with ⟨a, ha, rfl⟩
    rcases (hsmem b').mp hb' with ⟨b, hb, rfl⟩
    rw [hHeid] at hae hbe hne
    rw [hHeid b] at hne ⊢
    rw [if_neg hae, if_neg hbe] at *
    rw [hvd]
    exact hinv a ha b hb hne
  have hssym : ∀ a' ∈ (mSetPos m eid cx cz).players, a'.eid = eid →
      ∀ b' ∈ (mSetPos m eid cx cz).players, b'.eid ≠ eid →
      (b'.eid ∈ a'.tracked ↔ eid ∈ b'.tracked) := by
    intro a' ha' hae b' hb' hbe
    rcases (hsmem a').mp ha' with ⟨a, ha, rfl⟩
    rcases (hsmem b').mp hb' with ⟨b, hb, rfl⟩
    rw [hHeid] at hae hbe
    rw [hHtr a, hHtr b, hHeid b]
    have hab : a.eid ≠ b.eid := by
      rw [hae]
      exact fun hc => hbe hc.symm
    have h1 := hinv a ha b hb hab
    have h2 := hinv b hb a ha (fun hc => hab hc.symm)
    rw [← hae]
    rw [h1, h2, inViewDistance_symm]
  have hres := mUpdateTracking_preserves (mSetPos m eid cx cz) eid hsnd hsreg hsoff hssym
  exact hres

/-- C9: in every manager state reachable by any sequence of `Add` (with
fresh entity ids), `Remove`, and position updates (each followed by its
`UpdateTracking` pass), every pair of distinct registered players (A, B)
satisfies: A tracks B iff the Chebyshev distance between their chunk
coordinates is at most the view distance. -/
theorem c9_tracking_invariant (m : TManager) (h : ReachM m) : trackingInvariant m := by
  have hall : eidsNodup m ∧ trackedRegistered m ∧ trackingInvariant m := by
    induction h with
    | init vd =>
      refine ⟨by simp [eidsNodup], ?_, ?_⟩
      · intro a ha
        exact absurd ha (List.not_mem_nil a)
      · intro a ha
        exact absurd ha (List.not_mem_nil a)
    | add m eid cx cz hr hf ih =>
      exact mAdd_preserves m ⟨eid, cx, cz, []⟩ ih.1 ih.2.1 ih.2.2 hf rfl
    | remove m eid hr ih => exact mRemove_preserves m eid ih.1 ih.2.1 ih.2.2
    | move m eid cx cz hr ih => exact mMove_preserves m eid cx cz ih.1 ih.2.1 ih.2.2
  exact hall.2.2

theorem c9_witness :
    trackingInvariant
      (mMove (mAdd (mAdd ⟨8, []⟩ ⟨1, 0, 0, []⟩) ⟨2, 0, 0, []⟩) 1 20 20) :=
  c9_tracking_invariant _
    (ReachM.move _ 1 20 20
      (ReachM.add (mAdd ⟨8, []⟩ ⟨1, 0, 0, []⟩) 2 0 0
        (ReachM.add ⟨8, []⟩ 1 0 0 (ReachM.init 8) (by decide))
        (by decide)))
